import Mathlib

/-!
# grants-ui-config-api: authentication gate, author helper, tokens, form definitions

A shallow embedding of

* `src/plugins/auth/index.js` (`validateServiceCredentials`, `auth.plugin.register`),
* `src/helpers/get-author.js` (`getAuthor`),
* `src/config/index.js` (the schema defaults, the resolution from `process.env`, the
  validation and the check of the signing secret),
* `test/helpers/auth.js` (`generateTestToken`) and `test/fixtures/auth.js`,
* `scripts/generate-token.js` (the whole script),

together with the part of the JavaScript value semantics these functions rely on
(truthiness, property reads and writes, thrown errors) and the logger they write to, and a
model of the form definition, of its mutation, migration and publication, and of the audit
publisher, whose modules are not among the sources and are taken from the specification.
-/

namespace GrantsUiConfigApi

/-! ## JavaScript values -/

/-- The JavaScript values a decoded token, a credentials object or a user can be built from.
Numbers are represented by integers plus `nan`: the code only ever tests a number for
truthiness, and a number is falsy exactly when it is zero or NaN. -/
inductive JSValue where
  | undefined : JSValue
  | null : JSValue
  | bool (b : Bool) : JSValue
  | num (n : Int) : JSValue
  | nan : JSValue
  | str (s : String) : JSValue
  | arr (items : List JSValue) : JSValue
  | obj (fields : List (String × JSValue)) : JSValue

/-- Errors a function of this code base can throw. -/
inductive JSError where
  /-- The engine's `TypeError`, e.g. for a property read on `undefined` or `null`. -/
  | typeError (message : String) : JSError
  /-- An error built by `@hapi/boom`: HTTP status code, HTTP error name, message. -/
  | boom (statusCode : Nat) (error : String) (message : String) : JSError
  /-- A plain `new Error(message)`. -/
  | error (message : String) : JSError
  /-- The `SyntaxError` thrown by `JSON.parse`. -/
  | syntaxError (message : String) : JSError
  /-- A Node.js system error, which carries a `code` such as `'ENOENT'`. -/
  | system (code : String) (message : String) : JSError
  deriving DecidableEq, Repr

namespace JSValue

/-- JavaScript truthiness (`ToBoolean`): `undefined`, `null`, `false`, `0`, `NaN` and `''`
are falsy, every other value is truthy. -/
def truthy : JSValue → Bool
  | undefined => false
  | null => false
  | bool b => b
  | num n => n != 0
  | nan => false
  | str s => s != ""
  | arr _ => true
  | obj _ => true

/-- The values `undefined` and `null`. -/
def isNullish : JSValue → Bool
  | undefined => true
  | null => true
  | _ => false

/-- The value is a JavaScript string (`typeof v === 'string'`). -/
def isString : JSValue → Bool
  | str _ => true
  | _ => false

/-- Own-property lookup in the field list of an object; `undefined` when the key is absent. -/
def lookupField (key : String) : List (String × JSValue) → JSValue
  | [] => undefined
  | (k, v) :: rest => if k = key then v else lookupField key rest

/-- The property read `v.key`. It throws a `TypeError` on `undefined` and `null`, yields the
own property of an object, and `undefined` otherwise. Properties inherited from the
built-in prototypes (`length`, `constructor`, ...) are not modelled: none of the names the
code reads (`decoded`, `payload`, `serviceId`, `serviceName`, `id`, `displayName`, `local`)
is one. -/
def get (v : JSValue) (key : String) : Except JSError JSValue :=
  match v with
  | undefined =>
      .error (.typeError ("Cannot read properties of undefined (reading '" ++ key ++ "')"))
  | null =>
      .error (.typeError ("Cannot read properties of null (reading '" ++ key ++ "')"))
  | obj fields => .ok (lookupField key fields)
  | _ => .ok undefined

/-- The optional-chaining read `v?.key`: `undefined` on a nullish `v`, else `v.key`. -/
def getOpt (v : JSValue) (key : String) : Except JSError JSValue :=
  if v.isNullish then .ok undefined else v.get key

end JSValue

/-! ## Logger -/

/-- Severity of a log entry. -/
inductive LogLevel where
  | error : LogLevel
  | warn : LogLevel
  | info : LogLevel
  deriving DecidableEq, Repr

/-- One call made on the logger. -/
structure LogEntry where
  level : LogLevel
  message : String
  deriving DecidableEq, Repr

/-- The calls made on the logger so far, oldest first. -/
abbrev Log := List LogEntry

/-- The call `logger.info(message)`. -/
def Logger.info (log : Log) (message : String) : Log :=
  log ++ [{ level := LogLevel.info, message := message }]

/-! ## `src/plugins/auth/index.js` -/

/-- The text logged when the decoded token has no payload. -/
def authMissingPayloadMessage : String :=
  "[authMissingPayload] Auth: Missing payload from token."

/-- The text logged when the payload lacks one of the two identity fields. -/
def authMissingFieldsMessage : String :=
  "[authMissingFields] Auth: Missing required fields (serviceId or serviceName) in token payload."

/-- The result object `{ isValid: false }`. -/
def invalidResult : JSValue :=
  .obj [("isValid", .bool false)]

/-- The result object
`{ isValid: true, credentials: { user: { id, displayName }, scope } }`. -/
def validResult (serviceId serviceName scopes : JSValue) : JSValue :=
  .obj [("isValid", .bool true),
        ("credentials",
          .obj [("user", .obj [("id", serviceId), ("displayName", serviceName)]),
                ("scope", scopes)])]

/-- The function `validateServiceCredentials(artifacts)` of `src/plugins/auth/index.js`.

`getDefaultScopes` is the import from `~/src/api/entitlements/service.js`; `log` is the
state of the module's logger before the call. The result pairs what the call returns or
throws with the state of the logger after it. -/
def validateServiceCredentials (getDefaultScopes : Unit → JSValue) (artifacts : JSValue)
    (log : Log) : Except JSError JSValue × Log :=
  -- const payload = artifacts.decoded.payload
  match artifacts.get "decoded" with
  | .error e => (.error e, log)
  | .ok decoded =>
    match decoded.get "payload" with
    | .error e => (.error e, log)
    | .ok payload =>
      -- if (!payload) { logger.info(...); return { isValid: false } }
      if !payload.truthy then
        (.ok invalidResult, Logger.info log authMissingPayloadMessage)
      else
        -- const { serviceId, serviceName } = payload
        match payload.get "serviceId" with
        | .error e => (.error e, log)
        | .ok serviceId =>
          match payload.get "serviceName" with
          | .error e => (.error e, log)
          | .ok serviceName =>
            -- if (!serviceId || !serviceName) { logger.info(...); return { isValid: false } }
            if !serviceId.truthy || !serviceName.truthy then
              (.ok invalidResult, Logger.info log authMissingFieldsMessage)
            else
              -- const scopes = getDefaultScopes()
              let scopes := getDefaultScopes ()
              (.ok (validResult serviceId serviceName scopes), log)

/-- The configuration values read by the code (`src/config/index.js`): the signing secret
`jwtSecret`, the feature flag `useEntitlementApi`, the topic `snsTopicArn`, the feature
flag `publishAuditEvents`, the environment `env` with its three flags, and the `log`
settings. A field left out of a literal takes the `default` of the convict schema, which
for the flags and the `log` settings is the one of a process without `NODE_ENV`. -/
structure Config where
  jwtSecret : String := ""
  useEntitlementApi : Bool := false
  snsTopicArn : String := ""
  publishAuditEvents : Bool := false
  env : String := "development"
  isProduction : Bool := false
  isDevelopment : Bool := true
  isTest : Bool := false
  logEnabled : Bool := true
  logLevel : String := "info"
  logFormat : String := "pino-pretty"
  logRedact : List String := ["req", "res", "responseTime"]
  deriving DecidableEq, Repr

/-- The configuration in which every value is the `default` of the convict schema. -/
def Config.schemaDefaults : Config := {}

/-- A hapi plugin, identified by the module it is imported from. -/
structure Plugin where
  module : String
  deriving DecidableEq, Repr

/-- The default export of `@hapi/jwt`. -/
def Jwt : Plugin := { module := "@hapi/jwt" }

/-- The options object handed to `server.auth.strategy`. -/
structure StrategyOptions where
  keys : String
  verify : JSValue
  validate : JSValue → Log → Except JSError JSValue × Log

/-- A call received by the server while a plugin registers itself. -/
inductive ServerCall where
  /-- The call `server.register(plugin)`. -/
  | register (plugin : Plugin) : ServerCall
  /-- The call `server.auth.strategy(name, scheme, options)`. -/
  | authStrategy (name scheme : String) (options : StrategyOptions) : ServerCall
  /-- The call `server.auth.default(name)`. -/
  | authDefault (name : String) : ServerCall

/-- The server a plugin registers on, as the calls it has received, oldest first. Every
call is recorded and succeeds, as on the server double of `auth.test.js`. -/
abbrev Server := List ServerCall

/-- The call `server.register(plugin)`. -/
def Server.register (server : Server) (plugin : Plugin) : Server :=
  server ++ [ServerCall.register plugin]

/-- The call `server.auth.strategy(name, scheme, options)`. -/
def Server.authStrategy (server : Server) (name scheme : String)
    (options : StrategyOptions) : Server :=
  server ++ [ServerCall.authStrategy name scheme options]

/-- The call `server.auth.default(name)`. -/
def Server.authDefault (server : Server) (name : String) : Server :=
  server ++ [ServerCall.authDefault name]

/-- The literal `{ aud: false, iss: false, sub: false, nbf: true, exp: true }`. -/
def jwtVerifyOptions : JSValue :=
  .obj [("aud", .bool false), ("iss", .bool false), ("sub", .bool false),
        ("nbf", .bool true), ("exp", .bool true)]

/-- The name under which the auth plugin registers. -/
def auth.plugin.name : String := "auth"

/-- The method `auth.plugin.register(server)` of `src/plugins/auth/index.js`. The module
constant `jwtSecret` is `config.get('jwtSecret')`. -/
def auth.plugin.register (config : Config) (getDefaultScopes : Unit → JSValue)
    (server : Server) : Server :=
  -- await server.register(Jwt)
  let server := Server.register server Jwt
  -- server.auth.strategy('jwt-service', 'jwt', { keys, verify, validate })
  let server := Server.authStrategy server "jwt-service" "jwt"
    { keys := config.jwtSecret
      verify := jwtVerifyOptions
      validate := validateServiceCredentials getDefaultScopes }
  -- server.auth.default('jwt-service')
  Server.authDefault server "jwt-service"

/-! ## `src/helpers/get-author.js` -/

/-- The constructor `Boom.unauthorized(message)` of `@hapi/boom`: an HTTP 401 error. -/
def Boom.unauthorized (message : String) : JSError :=
  .boom 401 "Unauthorized" message

/-- The message of the error `getAuthor` throws. -/
def getAuthorMessage : String :=
  "Failed to get the author. User is undefined or has a malformed/missing id/displayName."

/-- The function `getAuthor(user)` of `src/helpers/get-author.js`. -/
def getAuthor (user : JSValue) : Except JSError JSValue :=
  -- if (!user?.id || !user.displayName) { throw Boom.unauthorized(...) }
  match user.getOpt "id" with
  | .error e => .error e
  | .ok id =>
    if !id.truthy then .error (Boom.unauthorized getAuthorMessage)
    else
      match user.get "displayName" with
      | .error e => .error e
      | .ok displayName =>
        if !displayName.truthy then .error (Boom.unauthorized getAuthorMessage)
        else
          -- return { id: user.id, displayName: user.displayName }
          match user.get "id" with
          | .error e => .error e
          | .ok id2 =>
            match user.get "displayName" with
            | .error e => .error e
            | .ok displayName2 => .ok (.obj [("id", id2), ("displayName", displayName2)])

/-! ## Reading results -/

namespace JSValue

/-- The chained property read `v.k1.k2...`. -/
def getPath (v : JSValue) : List String → Except JSError JSValue
  | [] => .ok v
  | key :: rest =>
    match v.get key with
    | .error e => .error e
    | .ok x => getPath x rest

/-- The value is a plain object (not a primitive, not `null`, not an array). -/
def isObject : JSValue → Bool
  | obj _ => true
  | _ => false

/-- The property `key` of `v` is missing: reading `v?.key` yields a falsy value, which is
`undefined` when `v` is nullish or has no such key, and otherwise an empty value such as
`''`. This is the test `!v?.key` of the code. -/
def missing (v : JSValue) (key : String) : Bool :=
  match v.getOpt key with
  | .ok x => !x.truthy
  | .error _ => true

end JSValue

/-- Scope resolution as the specification words it (section 4.1, step 3): when the
entitlement source is enabled by configuration, the scopes it returns for this service,
otherwise the static default scope set. -/
def specResolveScopes (config : Config) (getUserScopes : JSValue → JSValue)
    (getDefaultScopes : Unit → JSValue) (serviceId : JSValue) : JSValue :=
  if config.useEntitlementApi then getUserScopes serviceId else getDefaultScopes ()

/-! ## Form definitions and the Migration Engine

The module `~/src/api/forms/service/migration.js` is imported by the integration test only;
the definitions of this section follow sections 3, 4.3 and 7 of the specification. -/

/-- Modelled from the spec: the error taxonomy of section 7. -/
inductive ApiError where
  | Unauthorized : ApiError
  | NotFound : ApiError
  | Conflict : ApiError
  | InvalidInput : ApiError
  | StructuralInvalid : ApiError
  deriving DecidableEq, Repr

/-- Modelled from the spec: the two schema states `V1` and `V2` of the `engine` field. -/
inductive Engine where
  | V1 : Engine
  | V2 : Engine
  deriving DecidableEq, Repr

/-- Modelled from the spec: the Component of section 3, `{id, name, title, type}`. -/
structure Component where
  id : Option String
  name : String
  title : String
  type : String
  deriving DecidableEq, Repr

/-- Modelled from the spec: the Page of section 3, `{id, title, path, components, next}`,
with the controller designation of section 4.3. A V1 page may lack its id. The transition
targets in `next` are page paths. -/
structure Page where
  id : Option String
  title : String
  path : String
  controller : Option String
  components : List Component
  next : List String
  deriving DecidableEq, Repr

/-- Modelled from the spec: an item `{text, value}` of a List. -/
structure ListItem where
  text : String
  value : String
  deriving DecidableEq, Repr

/-- Modelled from the spec: the List of section 3, `{id, title, name, type, items}`. -/
structure FormList where
  id : Option String
  title : String
  name : String
  type : String
  items : List ListItem
  deriving DecidableEq, Repr

/-- Modelled from the spec: the Section of section 3, `{id, name, title, pageIds}`. -/
structure Section where
  id : Option String
  name : String
  title : String
  pageIds : List String
  deriving DecidableEq, Repr

/-- Modelled from the spec: the FormDefinition of section 3. -/
structure FormDefinition where
  name : String
  engine : Engine
  schema : Nat
  startPage : Option String
  pages : List Page
  conditions : List String
  sections : List Section
  lists : List FormList
  options : List (String × Bool)
  deriving DecidableEq, Repr

/-- Modelled from the spec: the structural validation of sections 4.3 and 4.4, missing from
the sources: no two pages share a path and every `next` target is the path of a page. -/
def structurallyConsistent (definition : FormDefinition) : Bool :=
  let paths := definition.pages.map (fun p => p.path)
  decide paths.Nodup &&
    definition.pages.all (fun p => p.next.all (fun target => paths.contains target))

/-- Modelled from the spec: the normalisation of a controller-designated page into its V2
canonical form (section 4.3). The canonical shape itself, `buildSummaryPage` of the missing
`__stubs__/definition.js`, is the parameter `canonical`; id, path, title and component list
are preserved. A page without a controller is left as it is. -/
def normalizePage (canonical : Page → Page) (page : Page) : Page :=
  match page.controller with
  | none => page
  | some _ =>
    { canonical page with
      id := page.id, path := page.path, title := page.title, components := page.components }

/-- Modelled from the spec: the page loop of the Migration Engine (section 4.3): pages are
visited in their order, a page lacking an id gets the next fresh one, `newId k` being the
`k`-th id drawn from the generator, and every page is normalised. -/
def migratePages (canonical : Page → Page) (newId : Nat → String) :
    Nat → List Page → List Page
  | _, [] => []
  | k, page :: rest =>
    match page.id with
    | some _ => normalizePage canonical page :: migratePages canonical newId k rest
    | none =>
      normalizePage canonical { page with id := some (newId k) } ::
        migratePages canonical newId (k + 1) rest

/-- Modelled from the spec: the Migration Engine of section 4.3, `migrateDefinitionToV2` of
the missing `~/src/api/forms/service/migration.js`, as a function of the draft definition.
A structurally inconsistent definition is rejected before migration proceeds; otherwise the
engine field is marked V2 and the pages are migrated in order. -/
def migrateDefinitionToV2 (canonical : Page → Page) (newId : Nat → String)
    (definition : FormDefinition) : Except ApiError FormDefinition :=
  if !structurallyConsistent definition then .error ApiError.StructuralInvalid
  else
    .ok { definition with
          engine := Engine.V2
          pages := migratePages canonical newId 0 definition.pages }

/-- Modelled from the spec: the V2 shape of section 4.3: the engine field is V2, every page
carries an id, and every controller-designated page is restated in the canonical shape,
that is, it is a page the normalisation with the canonical-shape builder produces. -/
def IsV2Shape (canonical : Page → Page) (definition : FormDefinition) : Prop :=
  definition.engine = Engine.V2 ∧
    ∀ p ∈ definition.pages,
      p.id.isSome = true ∧ (p.controller.isSome = true → ∃ q, p = normalizePage canonical q)

/-- Modelled from the spec: the canonical-shape builder is stable: normalising a page that
was normalised changes nothing. This is what makes the shape it builds canonical; the
builder itself, `buildSummaryPage`, is missing from the sources. -/
def StableCanonical (canonical : Page → Page) : Prop :=
  ∀ p, normalizePage canonical (normalizePage canonical p) = normalizePage canonical p

/-- A V2 definition of two question pages that share the path `/a`. -/
def sampleDuplicatePaths : FormDefinition :=
  { name := "API test form", engine := Engine.V2, schema := 2, startPage := some "/a",
    pages := [{ id := some "A", title := "Question", path := "/a", controller := none,
                components := [], next := [] },
              { id := some "B", title := "Question again", path := "/a", controller := none,
                components := [], next := [] }],
    conditions := [], sections := [], lists := [], options := [] }

/-- A V2 definition of a question page followed by a summary page without transitions. -/
def sampleV2Definition : FormDefinition :=
  { name := "API test form", engine := Engine.V2, schema := 2, startPage := some "/first",
    pages := [{ id := some "page-1", title := "First", path := "/first", controller := none,
                components := [], next := ["/summary"] },
              { id := some "page-2", title := "Summary", path := "/summary",
                controller := some "SummaryPageController", components := [], next := [] }],
    conditions := [], sections := [], lists := [], options := [] }

/-- A canonical-shape builder used with the sample data: a controller-designated page is
terminal, it has no transitions. -/
def sampleCanonical (page : Page) : Page :=
  { page with next := [] }

/-! ## Property writes and thrown errors -/

namespace JSValue

/-- Own-property write in the field list of an object: an existing key keeps its place, a
new key goes last. -/
def setField (key : String) (x : JSValue) : List (String × JSValue) → List (String × JSValue)
  | [] => [(key, x)]
  | (k, v) :: rest => if k = key then (k, x) :: rest else (k, v) :: setField key x rest

/-- The property write `v.key = x` in strict mode (every file of this code base is an ES
module), as the value `v` has become. It throws a `TypeError` on `undefined`, on `null` and
on a primitive. On an array the write succeeds, but a named property of an array is not
part of what `JSON.stringify` writes, and the model, whose arrays have items only, leaves
the array as it is. -/
def set (v : JSValue) (key : String) (x : JSValue) : Except JSError JSValue :=
  match v with
  | undefined =>
      .error (.typeError ("Cannot set properties of undefined (setting '" ++ key ++ "')"))
  | null =>
      .error (.typeError ("Cannot set properties of null (setting '" ++ key ++ "')"))
  | obj fields => .ok (obj (setField key x fields))
  | arr items => .ok (arr items)
  | _ => .error (.typeError ("Cannot create property '" ++ key ++ "' on a primitive"))

end JSValue

namespace JSError

/-- The property `error.code`: set on a Node.js system error, `undefined` otherwise. -/
def code : JSError → Option String
  | system c _ => some c
  | _ => none

/-- The property `error.message`. -/
def message : JSError → String
  | typeError m => m
  | boom _ _ m => m
  | error m => m
  | syntaxError m => m
  | system _ m => m

end JSError

/-! ## `test/helpers/auth.js` -/

/-- The second argument of `generateTestToken`; `none` is a property left out. -/
structure TestTokenOptions where
  serviceId : Option String := none
  serviceName : Option String := none
  expiresIn : Option Int := none
  deriving DecidableEq, Repr

/-- The gap between neighbouring doubles at the magnitude `n`, for `n` from `2^53` on: the
least power of two `s`, reached by doubling from the given `s`, with `n < 2^53 * s`. `fuel`
bounds the number of doublings; below the largest double fewer than 1024 are needed. -/
def doubleSpacing : Nat → Nat → Nat → Nat
  | 0, _, s => s
  | fuel + 1, n, s => if n < 2 ^ 53 * s then s else doubleSpacing fuel n (2 * s)

/-- The double nearest to the integer `x`, a tie going to the even significand (IEEE 754
round to nearest, ties to even). Every integer of magnitude at most `2^53` is a double; a
larger one is rounded to a multiple of the gap between doubles at its magnitude. The
magnitudes that JavaScript turns into `Infinity` (from about `1.8e308` on) are outside the
model. -/
def roundToDouble (x : Int) : Int :=
  let n := x.natAbs
  if n ≤ 2 ^ 53 then x
  else
    let s := doubleSpacing 1024 n 1
    let q := n / s
    let r := n % s
    let significand :=
      if 2 * r < s then q else if s < 2 * r then q + 1 else if q % 2 = 0 then q else q + 1
    x.sign * ((significand * s : Nat) : Int)

/-- The sum `a + b` of two integer-valued JavaScript numbers: the exact sum, rounded to the
nearest double. -/
def jsAdd (a b : Int) : Int :=
  roundToDouble (a + b)

/-- The payload object `generateTestToken` hands to `Jwt.token.generate`; `dateNow` is the
one reading of `Date.now()`, in milliseconds, and `Math.floor(dateNow / 1000)` is the floor
division of integers. `expiresIn` is a whole number of seconds, and `now + expiresIn` is an
addition of doubles. -/
def testTokenPayload (dateNow : Int) (options : Option TestTokenOptions) : JSValue :=
  -- { serviceId = 'test-service-001', serviceName = 'Test Service', expiresIn = 86400 * 90 } = {}
  let options := options.getD {}
  let serviceId := options.serviceId.getD "test-service-001"
  let serviceName := options.serviceName.getD "Test Service"
  let expiresIn := options.expiresIn.getD (86400 * 90)
  -- const now = Math.floor(Date.now() / 1000)
  let now := Int.fdiv dateNow 1000
  .obj [("serviceId", .str serviceId), ("serviceName", .str serviceName),
        ("iat", .num now), ("nbf", .num now), ("exp", .num (jsAdd now expiresIn))]

/-- The function `generateTestToken(jwtSecret, options)` of `test/helpers/auth.js`.
`generate payload key algorithm` is `Jwt.token.generate(payload, { key, algorithm })` of
`@hapi/jwt`, which returns the signed token as a string. -/
def generateTestToken (generate : JSValue → String → String → String) (dateNow : Int)
    (jwtSecret : Option String) (options : Option TestTokenOptions) : String :=
  -- jwtSecret = 'change-me-in-production'
  let jwtSecret := jwtSecret.getD "change-me-in-production"
  generate (testTokenPayload dateNow options) jwtSecret "HS256"

/-! ## `scripts/generate-token.js` -/

/-- What the script finds when it runs. -/
structure ScriptInput where
  /-- The variable `process.env.JWT_SECRET`. -/
  jwtSecret : Option String
  /-- The arguments `process.argv`. -/
  argv : List String
  /-- The successive readings of `Date.now()`, in milliseconds: `clock k` is the result of
  the call number `k`, counted from zero. -/
  clock : Nat → Int
  /-- What `readFile` yields for `http-client.private.env.json`: the text of the file, or
  the error it fails with. -/
  file : Except JSError String

/-- What a run of the script leaves behind. -/
structure ScriptResult where
  /-- The error the run ends with, if it throws. -/
  thrown : Option JSError
  /-- The text written to `http-client.private.env.json`, if `writeFile` was called. -/
  written : Option String
  /-- The lines printed with `console.log`. -/
  stdout : List String
  /-- The lines printed with `console.error`. -/
  stderr : List String
  deriving DecidableEq, Repr

/-- The message of the error the script throws without a secret. -/
def scriptSecretMessage : String :=
  "JWT_SECRET environment variable is not set. Set it in your .env file or export it before running this script."

/-- The payload object the script hands to `Jwt.token.generate`. Each of `iat`, `nbf` and
`exp` makes its own call of `Date.now()`, in this order. -/
def scriptTokenPayload (clock : Nat → Int) : JSValue :=
  .obj [("serviceId", .str "test-service-001"), ("serviceName", .str "Test Service"),
        ("iat", .num (Int.fdiv (clock 0) 1000)),
        ("nbf", .num (Int.fdiv (clock 1) 1000)),
        ("exp", .num (Int.fdiv (clock 2) 1000 + 86400 * 90))]

/-- The inner `try` of the `--save` branch: the configuration starts as `{}` and becomes
the parsed content of the file; an error of `readFile` or of `JSON.parse` is swallowed when
its `code` is `'ENOENT'` and thrown again otherwise. -/
def loadEnvFile (parse : String → Except JSError JSValue) (file : Except JSError String) :
    Except JSError JSValue :=
  match file with
  | .error e => if e.code ≠ some "ENOENT" then .error e else .ok (.obj [])
  | .ok fileContent =>
    match parse fileContent with
    | .error e => if e.code ≠ some "ENOENT" then .error e else .ok (.obj [])
    | .ok config => .ok config

/-- The two statements `config.local ??= {}` and `config.local.authToken = token`, as the
value of `config` after them. -/
def setLocalAuthToken (config : JSValue) (token : String) : Except JSError JSValue :=
  -- config.local ??= {}
  match config.get "local" with
  | .error e => .error e
  | .ok local0 =>
    let assigned : Except JSError (JSValue × JSValue) :=
      if local0.isNullish then
        match config.set "local" (.obj []) with
        | .error e => .error e
        | .ok config1 => .ok (config1, .obj [])
      else .ok (config, local0)
    match assigned with
    | .error e => .error e
    | .ok (config1, local1) =>
      -- config.local.authToken = token
      match local1.set "authToken" (.str token) with
      | .error e => .error e
      | .ok local2 => config1.set "local" local2

/-- The `--save` branch up to the call of `writeFile`: the text to write, or the error. -/
def savedEnvFile (parse : String → Except JSError JSValue) (stringify : JSValue → String)
    (file : Except JSError String) (token : String) : Except JSError String :=
  match loadEnvFile parse file with
  | .error e => .error e
  | .ok config =>
    match setLocalAuthToken config token with
    | .error e => .error e
    -- await writeFile(httpClientEnvPath, JSON.stringify(config, null, 2) + '\n', 'utf-8')
    | .ok config2 => .ok (stringify config2 ++ "\n")

/-- The script `scripts/generate-token.js`. `generate` is `Jwt.token.generate` of
`@hapi/jwt`, `parse` is `JSON.parse` and `stringify` is `JSON.stringify(_, null, 2)`; the
call of `writeFile` is taken to succeed. -/
def generateTokenScript (generate : JSValue → String → String → String)
    (parse : String → Except JSError JSValue) (stringify : JSValue → String)
    (input : ScriptInput) : ScriptResult :=
  -- const jwtSecret = process.env.JWT_SECRET; if (!jwtSecret) { throw new Error(...) }
  match input.jwtSecret with
  | none =>
    { thrown := some (.error scriptSecretMessage), written := none, stdout := [], stderr := [] }
  | some jwtSecret =>
    if jwtSecret = "" then
      { thrown := some (.error scriptSecretMessage), written := none, stdout := [],
        stderr := [] }
    else
      let token := generate (scriptTokenPayload input.clock) jwtSecret "HS256"
      -- const shouldUpdateFile = process.argv.includes('--save')
      if input.argv.contains "--save" then
        match savedEnvFile parse stringify input.file token with
        | .ok text =>
          { thrown := none, written := some text,
            stdout := ["Token generated and saved to http-client.private.env.json under \"local\" environment",
                       token],
            stderr := [] }
        | .error e =>
          -- console.error('Error updating http-client.private.env.json:', error.message)
          { thrown := some e, written := none, stdout := [],
            stderr := ["Error updating http-client.private.env.json: " ++ e.message] }
      else
        { thrown := none, written := none, stdout := [token], stderr := [] }

/-! ## Audit events

The module `~/src/messaging/publish-base.js` is not among the sources; its test
`publish-base.test.js` and the flags of `src/config/index.js` are. -/

/-- The input of an SNS `PublishCommand`. -/
structure PublishCommand where
  TopicArn : String
  Message : String
  deriving DecidableEq, Repr

/-- Modelled from the spec: `publishEvent(message)` of the missing
`~/src/messaging/publish-base.js`, following section 6 (an audit event is delivered to the
topic only when the audit-publishing flag is enabled) and `publish-base.test.js`: with the
flag off nothing is sent and the result is `undefined`; with the flag on one
`PublishCommand` is sent, to the topic `snsTopicArn`, carrying `JSON.stringify(message)`,
and the result is the reply of the client. `sent` lists the commands the SNS client has
received, oldest first; `stringify` is `JSON.stringify` and `reply` the client's answer. -/
def publishEvent (config : Config) (stringify : JSValue → String)
    (reply : PublishCommand → JSValue) (message : JSValue) (sent : List PublishCommand) :
    JSValue × List PublishCommand :=
  if config.publishAuditEvents then
    let command : PublishCommand :=
      { TopicArn := config.snsTopicArn, Message := stringify message }
    (reply command, sent ++ [command])
  else
    (.undefined, sent)

/-! ## The Definition Mutator and the Publish Orchestrator

The modules `~/src/api/forms/service/definition.js`, `page.js` and `lists.js` are imported
by the integration test only, which replaces them by test doubles; the definitions of this
section follow sections 3, 4.2, 4.4, 6 and 7 of the specification. -/

/-- Modelled from the spec: the HTTP status of an error kind (section 6): 400 for
validation and conflict errors, 401 for authentication failures. The specification names
no status for `NotFound`. -/
def ApiError.statusCode : ApiError → Option Nat
  | Unauthorized => some 401
  | NotFound => none
  | Conflict => some 400
  | InvalidInput => some 400
  | StructuralInvalid => some 400

/-- Modelled from the spec: the author `{id, displayName}` of an audit field. -/
structure Author where
  id : String
  displayName : String
  deriving DecidableEq, Repr

/-- Modelled from the spec: the four audit fields of the `live` part of FormMetadata
(section 3), present together or absent together. -/
structure AuditStamp where
  createdAt : Nat
  createdBy : Author
  updatedAt : Nat
  updatedBy : Author
  deriving DecidableEq, Repr

/-- Modelled from the spec: what the store holds for one form: the mutable draft
definition, the live definition once published, the `live` audit fields of the metadata,
and the number of audit events emitted so far. -/
structure FormState where
  draft : FormDefinition
  live : Option FormDefinition
  liveStamp : Option AuditStamp
  auditEvents : Nat
  deriving DecidableEq, Repr

/-- Modelled from the spec: a mutating operation applies to the draft copy only (section
4.2), on a freshly read copy, and a failed operation leaves no state behind (section 5).
`op` maps the draft to the returned resource and the updated draft, or to an error. -/
def editDraft {α : Type} (op : FormDefinition → Except ApiError (α × FormDefinition))
    (state : FormState) : Except ApiError α × FormState :=
  match op state.draft with
  | .error e => (.error e, state)
  | .ok (resource, draft) => (.ok resource, { state with draft := draft })

/-- The ids carried by the pages of a definition, in page order. -/
def pageIds (definition : FormDefinition) : List String :=
  definition.pages.filterMap (fun p => p.id)

/-- The first page that carries the given id. -/
def findPage (pages : List Page) (id : String) : Option Page :=
  pages.find? (fun p => decide (p.id = some id))

/-- Modelled from the spec: the sequence contains exactly the current id set (section 4.2,
Reorder pages): no duplicate id, no extra id, no missing id. -/
def isExactIdSet (order : List String) (definition : FormDefinition) : Bool :=
  decide order.Nodup &&
    order.all (fun id => (pageIds definition).contains id) &&
    (pageIds definition).all (fun id => order.contains id)

/-- Modelled from the spec: Reorder pages (section 4.2) of the missing
`reorderDraftFormDefinitionPages`: a sequence that is not exactly the current id set is
rejected as invalid input; otherwise the page order is replaced by the order of the
sequence and the reordered definition is returned. A page without an id (a V1 page, which
no sequence can name) keeps its place after the pages that were named. -/
def reorderPages (order : List String) (definition : FormDefinition) :
    Except ApiError (FormDefinition × FormDefinition) :=
  if isExactIdSet order definition then
    let reordered : FormDefinition :=
      { definition with
        pages := order.filterMap (findPage definition.pages) ++
                 definition.pages.filter (fun p => p.id.isNone) }
    .ok (reordered, reordered)
  else .error ApiError.InvalidInput

/-- Modelled from the spec: Create page (section 4.2) of the missing
`createPageOnDraftDefinition`: a path collision is rejected as a conflict; otherwise the
page gets the fresh id `newId` drawn from the id generator and is placed before the first
summary/terminal page if there is one, else at the end, and the created page is returned.
Which pages are summary/terminal pages is decided by `isTerminal`, the controller types
being part of the missing forms model. The optional explicit position is not modelled. -/
def createPage (isTerminal : Page → Bool) (newId : String) (page : Page)
    (definition : FormDefinition) : Except ApiError (Page × FormDefinition) :=
  if definition.pages.any (fun p => decide (p.path = page.path)) then
    .error ApiError.Conflict
  else
    let created : Page := { page with id := some newId }
    .ok (created,
         { definition with
           pages := definition.pages.takeWhile (fun p => !isTerminal p) ++
                    created :: definition.pages.dropWhile (fun p => !isTerminal p) })

/-- Modelled from the spec: Create list (section 4.2) of the missing
`addListToDraftFormDefinition`: list names are unique across the definition, so a name
already in use is rejected as a conflict; otherwise the list gets the id `newId` and is
added to the lists. -/
def addList (newId : String) (list : FormList) (definition : FormDefinition) :
    Except ApiError (FormList × FormDefinition) :=
  if definition.lists.any (fun l => decide (l.name = list.name)) then
    .error ApiError.Conflict
  else
    let created : FormList := { list with id := some newId }
    .ok (created, { definition with lists := definition.lists ++ [created] })

/-- Modelled from the spec: Update list (section 4.2) of the missing
`updateListOnDraftFormDefinition`: an unknown id is not found; a new name that collides
with the name of a different existing list is rejected as a conflict; otherwise the list
with this id is replaced. -/
def updateList (listId : String) (list : FormList) (definition : FormDefinition) :
    Except ApiError (FormList × FormDefinition) :=
  if !definition.lists.any (fun l => decide (l.id = some listId)) then
    .error ApiError.NotFound
  else if definition.lists.any
      (fun l => decide (l.id ≠ some listId) && decide (l.name = list.name)) then
    .error ApiError.Conflict
  else
    let updated : FormList := { list with id := some listId }
    .ok (updated,
         { definition with
           lists := definition.lists.map
             (fun l => if l.id = some listId then updated else l) })

/-- Modelled from the spec: the Publish Orchestrator (section 4.4) of the missing
`createLiveFromDraft`. The draft must pass the structural validation; if it does not,
nothing changes. On success the live definition becomes a copy of the draft,
`{createdAt, createdBy}` are set on the first publish only, `{updatedAt, updatedBy}` are
refreshed, and one audit event is emitted. -/
def createLiveFromDraft (now : Nat) (author : Author) (state : FormState) :
    Except ApiError Unit × FormState :=
  if !structurallyConsistent state.draft then
    (.error ApiError.StructuralInvalid, state)
  else
    let stamp : AuditStamp :=
      match state.liveStamp with
      | none => { createdAt := now, createdBy := author, updatedAt := now, updatedBy := author }
      | some previous => { previous with updatedAt := now, updatedBy := author }
    (.ok (),
     { state with
       live := some state.draft
       liveStamp := some stamp
       auditEvents := state.auditEvents + 1 })

/-! ## Sample data -/

/-- A question page without components, as in the integration test. -/
def samplePage (id path : String) : Page :=
  { id := some id, title := "Question", path := path, controller := none, components := [],
    next := [] }

/-- A summary page. -/
def sampleSummaryPage (id path : String) : Page :=
  { id := some id, title := "Summary", path := path,
    controller := some "SummaryPageController", components := [], next := [] }

/-- A draft with the pages A, B, C and the summary page D, and the lists `YhmNDP` and
`PeriodicTable`. -/
def sampleDraft : FormDefinition :=
  { name := "API test form", engine := Engine.V2, schema := 2, startPage := some "/a",
    pages := [samplePage "A" "/a", samplePage "B" "/b", samplePage "C" "/c",
              sampleSummaryPage "D" "/summary"],
    conditions := [], sections := [],
    lists := [{ id := some "l1", title := "Development language", name := "YhmNDP",
                type := "string", items := [{ text := "Javascript", value := "javascript" }] },
              { id := some "l2", title := "Periodic Table", name := "PeriodicTable",
                type := "number", items := [] }],
    options := [] }

/-- A form that has the sample draft and was never published. -/
def sampleState : FormState :=
  { draft := sampleDraft, live := none, liveStamp := none, auditEvents := 0 }

/-- The test for a summary page used with the sample data. -/
def sampleIsTerminal (page : Page) : Bool :=
  decide (page.controller = some "SummaryPageController")

/-! ## `src/config/index.js` -/

/-- The variables of `process.env`; `none` is a variable that is not set. -/
abbrev ProcessEnv := String → Option String

/-- The `default` entries of the convict schema. They depend on `process.env.NODE_ENV`
through the three module constants `isProduction`, `isDev` and `isTest`. -/
def schemaDefaultsFor (nodeEnv : Option String) : Config :=
  -- const isProduction = process.env.NODE_ENV === 'production'
  let isProduction : Bool := decide (nodeEnv = some "production")
  -- const isDev = process.env.NODE_ENV !== 'production'
  let isDev : Bool := decide (nodeEnv ≠ some "production")
  -- const isTest = process.env.NODE_ENV === 'test'
  let isTest : Bool := decide (nodeEnv = some "test")
  { env := "development"
    isProduction := isProduction
    isDevelopment := isDev
    isTest := isTest
    logEnabled := !isTest
    logLevel := "info"
    logFormat := if isProduction then "ecs" else "pino-pretty"
    logRedact :=
      if isProduction then ["req.headers.authorization", "req.headers.cookie", "res.headers"]
      else ["req", "res", "responseTime"]
    jwtSecret := ""
    snsTopicArn := ""
    publishAuditEvents := false
    useEntitlementApi := false }

/-- The configuration `convict({...})` builds: an entry that names an `env` variable takes
the value of that variable when it is set, and its `default` otherwise; the three flags and
`log.redact` name no variable. `coerceBoolean` is convict's reading of a variable as a
Boolean. -/
def resolveConfig (processEnv : ProcessEnv) (coerceBoolean : String → Bool) : Config :=
  let defaults := schemaDefaultsFor (processEnv "NODE_ENV")
  { defaults with
    env := (processEnv "NODE_ENV").getD defaults.env
    logEnabled := ((processEnv "LOG_ENABLED").map coerceBoolean).getD defaults.logEnabled
    logLevel := (processEnv "LOG_LEVEL").getD defaults.logLevel
    logFormat := (processEnv "LOG_FORMAT").getD defaults.logFormat
    jwtSecret := (processEnv "JWT_SECRET").getD defaults.jwtSecret
    snsTopicArn := (processEnv "SNS_TOPIC_ARN").getD defaults.snsTopicArn
    publishAuditEvents :=
      ((processEnv "FEATURE_FLAG_PUBLISH_AUDIT_EVENTS").map coerceBoolean).getD
        defaults.publishAuditEvents
    useEntitlementApi :=
      ((processEnv "FEATURE_FLAG_USE_ENTITLEMENT_API").map coerceBoolean).getD
        defaults.useEntitlementApi }

/-- The keys of this model whose value is not one of the values their `format` lists. -/
def schemaViolations (config : Config) : List String :=
  (if config.env ∈ ["production", "development", "test"] then [] else ["env"]) ++
  (if config.logLevel ∈ ["fatal", "error", "warn", "info", "debug", "trace", "silent"] then []
    else ["log.level"]) ++
  (if config.logFormat ∈ ["ecs", "pino-pretty"] then [] else ["log.format"])

/-- The message of the error the module throws without a signing secret. -/
def configSecretMessage : String :=
  "JWT_SECRET environment variable must be set."

/-- The module `src/config/index.js`: what importing it yields, the configuration or the
error thrown. `config.validate({ allowed: 'strict' })` throws one error for all the keys
that violate their format; the model keeps the keys as its message. `otherViolations` are
the violations among the keys this model leaves out (`port`, whose format is `'port'`). -/
def loadConfig (processEnv : ProcessEnv) (coerceBoolean : String → Bool)
    (otherViolations : List String) : Except JSError Config :=
  let config := resolveConfig processEnv coerceBoolean
  -- config.validate({ allowed: 'strict' })
  let violations := schemaViolations config ++ otherViolations
  if violations ≠ [] then .error (.error (String.intercalate "\n" violations))
  -- if (!config.get('jwtSecret')) { throw new Error('JWT_SECRET environment variable must be set.') }
  else if config.jwtSecret = "" then .error (.error configSecretMessage)
  else .ok config

/-! ## `test/fixtures/auth.js` -/

/-- The fixture `auth` of `test/fixtures/auth.js`. -/
def authFixture : JSValue :=
  .obj [("strategy", .str "jwt-service"),
        ("credentials",
          .obj [("user", .obj [("id", .str "test-service-001"),
                               ("displayName", .str "Test Service")]),
                ("scope", .arr [.str "form-delete", .str "form-edit", .str "form-read",
                                .str "form-publish"])])]

/-! ## Properties of the JavaScript value model -/

/-- A property read that yields a truthy value was made on a truthy value. -/
theorem JSValue.truthy_of_get_truthy {v x : JSValue} {key : String}
    (h : v.get key = .ok x) (hx : x.truthy = true) : v.truthy = true := by
  cases v <;> simp_all [JSValue.get, JSValue.truthy] <;> subst h <;>
    simp [JSValue.truthy] at hx

/-- A truthy value is neither `undefined` nor `null`. -/
theorem JSValue.not_nullish_of_truthy {v : JSValue} (h : v.truthy = true) :
    v.isNullish = false := by
  cases v <;> simp_all [JSValue.truthy, JSValue.isNullish]

/-- A nullish value is falsy. -/
theorem JSValue.not_truthy_of_nullish {v : JSValue} (h : v.isNullish = true) :
    v.truthy = false := by
  cases v <;> simp_all [JSValue.truthy, JSValue.isNullish]

/-- A property read on a value that is neither `undefined` nor `null` does not throw. -/
theorem JSValue.get_ok_of_not_nullish {v : JSValue} (key : String)
    (h : v.isNullish = false) : ∃ x, v.get key = .ok x := by
  cases v <;> simp_all [JSValue.get, JSValue.isNullish]

/-- A property read on a value that is not an object yields `undefined` if it yields
anything. -/
theorem JSValue.get_undefined_of_not_object {v x : JSValue} {key : String}
    (hv : v.isObject = false) (h : v.get key = .ok x) : x = .undefined := by
  cases v <;> simp [JSValue.get, JSValue.isObject] at h hv <;> exact h.symm

/-! ## The authentication gate -/

/-- C1: when the decoded payload carries a truthy (present, non-empty) `serviceId` and
`serviceName`, `validateServiceCredentials` returns exactly
`{isValid: true, credentials: {user: {id: serviceId, displayName: serviceName}, scope: S}}`
with `S` the value returned by the scope resolver, and logs nothing; the result is built
from these three values only, so no other field of the payload appears in it. -/
theorem validateServiceCredentials_admits (getDefaultScopes : Unit → JSValue)
    (artifacts decoded payload serviceId serviceName : JSValue) (log : Log)
    (hdecoded : artifacts.get "decoded" = .ok decoded)
    (hpayload : decoded.get "payload" = .ok payload)
    (hid : payload.get "serviceId" = .ok serviceId)
    (hname : payload.get "serviceName" = .ok serviceName)
    (hidPresent : serviceId.truthy = true)
    (hnamePresent : serviceName.truthy = true) :
    validateServiceCredentials getDefaultScopes artifacts log =
      (.ok (.obj [("isValid", .bool true),
                  ("credentials",
                    .obj [("user", .obj [("id", serviceId), ("displayName", serviceName)]),
                          ("scope", getDefaultScopes ())])]),
       log) := by
  have hp : payload.truthy = true := JSValue.truthy_of_get_truthy hid hidPresent
  simp [validateServiceCredentials, validResult, hdecoded, hpayload, hid, hname, hp,
    hidPresent, hnamePresent]

/-- Witness for C1 on the token of the unit test, with the scope set of the test double. -/
theorem validateServiceCredentials_admits_witness :
    validateServiceCredentials
        (fun _ => .arr [.str "form-delete", .str "form-edit", .str "form-read",
                        .str "form-publish"])
        (.obj [("decoded", .obj [("payload",
          .obj [("serviceId", .str "test-service-001"),
                ("serviceName", .str "Test Service"),
                ("exp", .num 1900000000)])])]) [] =
      (.ok (.obj [("isValid", .bool true),
                  ("credentials",
                    .obj [("user", .obj [("id", .str "test-service-001"),
                                         ("displayName", .str "Test Service")]),
                          ("scope", .arr [.str "form-delete", .str "form-edit",
                                          .str "form-read", .str "form-publish"])])]),
       []) :=
  validateServiceCredentials_admits _ _
    (.obj [("payload",
          .obj [("serviceId", .str "test-service-001"),
                ("serviceName", .str "Test Service"),
                ("exp", .num 1900000000)])])
    (.obj [("serviceId", .str "test-service-001"),
           ("serviceName", .str "Test Service"),
           ("exp", .num 1900000000)])
    (.str "test-service-001") (.str "Test Service") []
    (by simp [JSValue.get, JSValue.lookupField])
    (by simp [JSValue.get, JSValue.lookupField])
    (by simp [JSValue.get, JSValue.lookupField])
    (by simp [JSValue.get, JSValue.lookupField])
    (by simp [JSValue.truthy]) (by simp [JSValue.truthy])

/-- C2: when the decoded payload is present (truthy) but its `serviceId` or its
`serviceName` is missing (reads as a falsy value, `undefined` for an absent key),
`validateServiceCredentials` returns exactly `{isValid: false}`, an object without a
`credentials` field, and makes exactly one logger call, `info` with the
`authMissingFields` text. -/
theorem validateServiceCredentials_missing_fields (getDefaultScopes : Unit → JSValue)
    (artifacts decoded payload serviceId serviceName : JSValue) (log : Log)
    (hdecoded : artifacts.get "decoded" = .ok decoded)
    (hpayload : decoded.get "payload" = .ok payload)
    (hpresent : payload.truthy = true)
    (hid : payload.get "serviceId" = .ok serviceId)
    (hname : payload.get "serviceName" = .ok serviceName)
    (hmissing : serviceId.truthy = false ∨ serviceName.truthy = false) :
    validateServiceCredentials getDefaultScopes artifacts log =
      (.ok (.obj [("isValid", .bool false)]),
       log ++ [{ level := LogLevel.info,
                 message := "[authMissingFields] Auth: Missing required fields (serviceId or serviceName) in token payload." }]) := by
  rcases hmissing with h | h <;>
    simp [validateServiceCredentials, invalidResult, Logger.info, authMissingFieldsMessage,
      hdecoded, hpayload, hid, hname, hpresent, h]

/-- Witness for C2 on the token of the unit test that has no `serviceId`. -/
theorem validateServiceCredentials_missing_fields_witness :
    validateServiceCredentials (fun _ => .arr [.str "form-read"])
        (.obj [("decoded", .obj [("payload", .obj [("serviceName", .str "Test Service")])])])
        [] =
      (.ok (.obj [("isValid", .bool false)]),
       [{ level := LogLevel.info,
          message := "[authMissingFields] Auth: Missing required fields (serviceId or serviceName) in token payload." }]) :=
  validateServiceCredentials_missing_fields _ _
    (.obj [("payload", .obj [("serviceName", .str "Test Service")])])
    (.obj [("serviceName", .str "Test Service")])
    .undefined (.str "Test Service") []
    (by simp [JSValue.get, JSValue.lookupField])
    (by simp [JSValue.get, JSValue.lookupField])
    (by simp [JSValue.truthy])
    (by simp [JSValue.get, JSValue.lookupField])
    (by simp [JSValue.get, JSValue.lookupField])
    (Or.inl (by simp [JSValue.truthy]))

/-- C3: when the decoded payload is absent (`null` or `undefined`),
`validateServiceCredentials` returns exactly `{isValid: false}` and makes exactly one
logger call, `info` with the `authMissingPayload` text; that text is not the
`authMissingFields` one, which is therefore not logged. -/
theorem validateServiceCredentials_missing_payload (getDefaultScopes : Unit → JSValue)
    (artifacts decoded payload : JSValue) (log : Log)
    (hdecoded : artifacts.get "decoded" = .ok decoded)
    (hpayload : decoded.get "payload" = .ok payload)
    (habsent : payload = .null ∨ payload = .undefined) :
    validateServiceCredentials getDefaultScopes artifacts log =
      (.ok (.obj [("isValid", .bool false)]),
       log ++ [{ level := LogLevel.info,
                 message := "[authMissingPayload] Auth: Missing payload from token." }]) ∧
    (∀ entry ∈ (validateServiceCredentials getDefaultScopes artifacts log).2,
      entry ∈ log ∨ entry.message ≠ authMissingFieldsMessage) := by
  have hp : payload.truthy = false := by
    rcases habsent with h | h <;> subst h <;> rfl
  have hrun : validateServiceCredentials getDefaultScopes artifacts log =
      (.ok (.obj [("isValid", .bool false)]),
       log ++ [{ level := LogLevel.info,
                 message := "[authMissingPayload] Auth: Missing payload from token." }]) := by
    simp [validateServiceCredentials, invalidResult, Logger.info, authMissingPayloadMessage,
      hdecoded, hpayload, hp]
  refine ⟨hrun, ?_⟩
  intro entry hentry
  rw [hrun] at hentry
  simp only [List.mem_append, List.mem_singleton] at hentry
  rcases hentry with h | h
  · exact Or.inl h
  · right
    subst h
    simp [authMissingFieldsMessage]

/-- Witness for C3 on the token of the unit test whose payload is `null`. -/
theorem validateServiceCredentials_missing_payload_witness :
    validateServiceCredentials (fun _ => .arr [.str "form-read"])
        (.obj [("decoded", .obj [("payload", .null)])]) [] =
      (.ok (.obj [("isValid", .bool false)]),
       [{ level := LogLevel.info,
          message := "[authMissingPayload] Auth: Missing payload from token." }]) :=
  (validateServiceCredentials_missing_payload _ _
    (.obj [("payload", .null)]) .null []
    (by simp [JSValue.get, JSValue.lookupField])
    (by simp [JSValue.get, JSValue.lookupField])
    (Or.inl rfl)).1

/-- Every run of `validateServiceCredentials` on artifacts whose `decoded` part is an
actual value takes one of three paths: payload rejected, fields rejected, admitted. -/
theorem validateServiceCredentials_cases (getDefaultScopes : Unit → JSValue)
    (artifacts decoded : JSValue) (log : Log)
    (hdecoded : artifacts.get "decoded" = .ok decoded)
    (hvalue : decoded.isNullish = false) :
    ∃ payload, decoded.get "payload" = .ok payload ∧
      ((payload.truthy = false ∧
          validateServiceCredentials getDefaultScopes artifacts log =
            (.ok invalidResult, Logger.info log authMissingPayloadMessage)) ∨
       (payload.truthy = true ∧ ∃ serviceId serviceName,
          payload.get "serviceId" = .ok serviceId ∧
          payload.get "serviceName" = .ok serviceName ∧
          ((serviceId.truthy = false ∨ serviceName.truthy = false) ∧
              validateServiceCredentials getDefaultScopes artifacts log =
                (.ok invalidResult, Logger.info log authMissingFieldsMessage) ∨
           (serviceId.truthy = true ∧ serviceName.truthy = true) ∧
              validateServiceCredentials getDefaultScopes artifacts log =
                (.ok (validResult serviceId serviceName (getDefaultScopes ())), log)))) := by
  obtain ⟨payload, hpayload⟩ := JSValue.get_ok_of_not_nullish "payload" hvalue
  refine ⟨payload, hpayload, ?_⟩
  cases hp : payload.truthy with
  | false =>
    left
    simp [validateServiceCredentials, hdecoded, hpayload, hp]
  | true =>
    right
    refine ⟨rfl, ?_⟩
    obtain ⟨serviceId, hid⟩ :=
      JSValue.get_ok_of_not_nullish "serviceId" (JSValue.not_nullish_of_truthy hp)
    obtain ⟨serviceName, hname⟩ :=
      JSValue.get_ok_of_not_nullish "serviceName" (JSValue.not_nullish_of_truthy hp)
    refine ⟨serviceId, serviceName, hid, hname, ?_⟩
    cases h1 : serviceId.truthy <;> cases h2 : serviceName.truthy <;>
      simp [validateServiceCredentials, hdecoded, hpayload, hp, hid, hname, h1, h2]

/-- A result of `validateServiceCredentials` that says `isValid: true` is the admission of
the payload's own `serviceId` and `serviceName`, both truthy, with the resolver's scopes,
and leaves the log as it was. -/
theorem validateServiceCredentials_valid_inv (getDefaultScopes : Unit → JSValue)
    (artifacts result : JSValue) (log : Log)
    (hrun : (validateServiceCredentials getDefaultScopes artifacts log).1 = .ok result)
    (hvalid : result.get "isValid" = .ok (.bool true)) :
    ∃ serviceId serviceName,
      artifacts.getPath ["decoded", "payload", "serviceId"] = .ok serviceId ∧
      artifacts.getPath ["decoded", "payload", "serviceName"] = .ok serviceName ∧
      serviceId.truthy = true ∧ serviceName.truthy = true ∧
      result = validResult serviceId serviceName (getDefaultScopes ()) ∧
      (validateServiceCredentials getDefaultScopes artifacts log).2 = log := by
  cases hdecoded : artifacts.get "decoded" with
  | error e => simp [validateServiceCredentials, hdecoded] at hrun
  | ok decoded =>
    cases hpayload : decoded.get "payload" with
    | error e => simp [validateServiceCredentials, hdecoded, hpayload] at hrun
    | ok payload =>
      have hvalue : decoded.isNullish = false := by
        cases decoded <;> simp_all [JSValue.get, JSValue.isNullish]
      obtain ⟨payload2, hpayload2, hcases⟩ :=
        validateServiceCredentials_cases getDefaultScopes artifacts decoded log hdecoded hvalue
      have hsame : payload2 = payload := by
        rw [hpayload] at hpayload2
        injection hpayload2 with h
        exact h.symm
      subst hsame
      rcases hcases with ⟨_, hres⟩ | ⟨_, serviceId, serviceName, hid, hname, hrest⟩
      · rw [hres] at hrun
        simp only [Except.ok.injEq] at hrun
        subst hrun
        simp [invalidResult, JSValue.get, JSValue.lookupField] at hvalid
      · rcases hrest with ⟨_, hres⟩ | ⟨⟨h1, h2⟩, hres⟩
        · rw [hres] at hrun
          simp only [Except.ok.injEq] at hrun
          subst hrun
          simp [invalidResult, JSValue.get, JSValue.lookupField] at hvalid
        · rw [hres] at hrun
          simp only [Except.ok.injEq] at hrun
          refine ⟨serviceId, serviceName, ?_, ?_, h1, h2, hrun.symm, ?_⟩
          · simp [JSValue.getPath, hdecoded, hpayload, hid]
          · simp [JSValue.getPath, hdecoded, hpayload, hname]
          · rw [hres]

/-- C4, as stated, fails: on artifacts with no `decoded` part, here `{}`, the read
`artifacts.decoded.payload` throws a `TypeError`, so no result is returned (and nothing is
logged). -/
theorem validateServiceCredentials_throws_without_decoded :
    ¬ ∀ (getDefaultScopes : Unit → JSValue) (artifacts : JSValue) (log : Log),
        ∃ result, (validateServiceCredentials getDefaultScopes artifacts log).1 = .ok result := by
  intro h
  obtain ⟨result, hresult⟩ := h (fun _ => .arr []) (.obj []) []
  simp [validateServiceCredentials, JSValue.get, JSValue.lookupField] at hresult

/-- C4, amended: on every artifacts whose `decoded` part is an actual value (not
`undefined`, not `null`), `validateServiceCredentials` does not throw but returns a result.
Whenever that result is `{isValid: false}` exactly one log entry was added, an `info`
entry carrying one of the two reason codes `authMissingPayload`, `authMissingFields`.
And every malformed payload is rejected: an absent payload, a payload that is not an
object, a payload whose `serviceId` or `serviceName` is missing. -/
theorem validateServiceCredentials_total (getDefaultScopes : Unit → JSValue)
    (artifacts decoded : JSValue) (log : Log)
    (hdecoded : artifacts.get "decoded" = .ok decoded)
    (hvalue : decoded.isNullish = false) :
    ∃ result log2,
      validateServiceCredentials getDefaultScopes artifacts log = (.ok result, log2) ∧
      (result = invalidResult →
        log2 = log ++ [{ level := LogLevel.info, message := authMissingPayloadMessage }] ∨
        log2 = log ++ [{ level := LogLevel.info, message := authMissingFieldsMessage }]) ∧
      (∀ payload, decoded.get "payload" = .ok payload →
        (payload.isNullish = true ∨ payload.isObject = false ∨
          payload.missing "serviceId" = true ∨ payload.missing "serviceName" = true) →
        result = invalidResult) := by
  obtain ⟨payload, hpayload, hcases⟩ :=
    validateServiceCredentials_cases getDefaultScopes artifacts decoded log hdecoded hvalue
  rcases hcases with ⟨_, hres⟩ | ⟨hp, serviceId, serviceName, hid, hname, hrest⟩
  · exact ⟨_, _, hres, fun _ => Or.inl rfl, fun _ _ _ => rfl⟩
  · rcases hrest with ⟨_, hres⟩ | ⟨⟨h1, h2⟩, hres⟩
    · exact ⟨_, _, hres, fun _ => Or.inr rfl, fun _ _ _ => rfl⟩
    · refine ⟨_, _, hres, ?_, ?_⟩
      · intro hinv
        simp [validResult, invalidResult] at hinv
      · intro payload2 hpayload2 hmalformed
        exfalso
        have hsame : payload2 = payload := by
          rw [hpayload] at hpayload2
          injection hpayload2 with h
          exact h.symm
        subst hsame
        have hnn : payload2.isNullish = false := JSValue.not_nullish_of_truthy hp
        rcases hmalformed with h | h | h | h
        · rw [hnn] at h
          cases h
        · have hundef := JSValue.get_undefined_of_not_object h hid
          rw [hundef] at h1
          simp [JSValue.truthy] at h1
        · simp [JSValue.missing, JSValue.getOpt, hnn, hid, h1] at h
        · simp [JSValue.missing, JSValue.getOpt, hnn, hname, h2] at h

/-- Witness for the amended C4 on a token whose payload is a string, not an object. -/
theorem validateServiceCredentials_total_witness :
    ∃ result log2,
      validateServiceCredentials (fun _ => .arr [.str "form-read"])
        (.obj [("decoded", .obj [("payload", .str "not an object")])]) [] =
          (.ok result, log2) ∧
      (result = invalidResult →
        log2 = [] ++ [{ level := LogLevel.info, message := authMissingPayloadMessage }] ∨
        log2 = [] ++ [{ level := LogLevel.info, message := authMissingFieldsMessage }]) ∧
      (∀ payload,
        (JSValue.obj [("payload", .str "not an object")]).get "payload" = .ok payload →
        (payload.isNullish = true ∨ payload.isObject = false ∨
          payload.missing "serviceId" = true ∨ payload.missing "serviceName" = true) →
        result = invalidResult) :=
  validateServiceCredentials_total _ _ (.obj [("payload", .str "not an object")]) []
    (by simp [JSValue.get, JSValue.lookupField]) (by simp [JSValue.isNullish])

/-- C5, evaluated where it fails: the gate never reads the flag `useEntitlementApi`. With
the flag enabled and an entitlement source that grants only `form-read`, the admitted
service `test-service-001` still gets the four default scopes, so the scope set of its
credentials is not the one the flag is documented to select. -/
theorem validateServiceCredentials_scope_not_from_entitlements :
    ¬ ∀ (config : Config) (getUserScopes : JSValue → JSValue)
        (getDefaultScopes : Unit → JSValue) (artifacts serviceId result : JSValue) (log : Log),
        artifacts.getPath ["decoded", "payload", "serviceId"] = .ok serviceId →
        (validateServiceCredentials getDefaultScopes artifacts log).1 = .ok result →
        result.get "isValid" = .ok (.bool true) →
        result.getPath ["credentials", "scope"] =
          .ok (specResolveScopes config getUserScopes getDefaultScopes serviceId) := by
  intro h
  have h2 := h { jwtSecret := "secret", useEntitlementApi := true }
    (fun _ => .arr [.str "form-read"])
    (fun _ => .arr [.str "form-delete", .str "form-edit", .str "form-read",
                    .str "form-publish"])
    (.obj [("decoded", .obj [("payload",
          .obj [("serviceId", .str "test-service-001"),
                ("serviceName", .str "Test Service")])])])
    (.str "test-service-001")
    (validResult (.str "test-service-001") (.str "Test Service")
      (.arr [.str "form-delete", .str "form-edit", .str "form-read", .str "form-publish"]))
    []
    (by simp [JSValue.getPath, JSValue.get, JSValue.lookupField])
    (by simp [validateServiceCredentials, JSValue.get, JSValue.lookupField, JSValue.truthy])
    (by simp [validResult, JSValue.get, JSValue.lookupField])
  simp [validResult, specResolveScopes, JSValue.getPath, JSValue.get,
    JSValue.lookupField] at h2

/-- What the gate does for every value of the flag `useEntitlementApi`: the scope set in
the credentials of an admitted service is the value of `getDefaultScopes`, which is the
resolution the specification asks for when the flag is disabled. -/
theorem validateServiceCredentials_scope_default (config : Config)
    (getUserScopes : JSValue → JSValue) (getDefaultScopes : Unit → JSValue)
    (artifacts serviceId result : JSValue) (log : Log)
    (hrun : (validateServiceCredentials getDefaultScopes artifacts log).1 = .ok result)
    (hvalid : result.get "isValid" = .ok (.bool true)) :
    result.getPath ["credentials", "scope"] = .ok (getDefaultScopes ()) ∧
    (config.useEntitlementApi = false →
      result.getPath ["credentials", "scope"] =
        .ok (specResolveScopes config getUserScopes getDefaultScopes serviceId)) := by
  obtain ⟨sid, sname, _, _, _, _, hres, _⟩ :=
    validateServiceCredentials_valid_inv getDefaultScopes artifacts result log hrun hvalid
  subst hres
  have hscope : (validResult sid sname (getDefaultScopes ())).getPath ["credentials", "scope"] =
      .ok (getDefaultScopes ()) := by
    simp [validResult, JSValue.getPath, JSValue.get, JSValue.lookupField]
  refine ⟨hscope, ?_⟩
  intro hflag
  simp [hscope, specResolveScopes, hflag]

/-- An instance of the previous fact: flag enabled, entitlement source granting `form-read`
only, and the credentials carry the default scopes. -/
theorem validateServiceCredentials_scope_default_witness :
    (validResult (.str "test-service-001") (.str "Test Service")
        (.arr [.str "form-delete", .str "form-edit"])).getPath ["credentials", "scope"] =
      .ok (.arr [.str "form-delete", .str "form-edit"]) :=
  (validateServiceCredentials_scope_default
    { jwtSecret := "secret", useEntitlementApi := true }
    (fun _ => .arr [.str "form-read"])
    (fun _ => .arr [.str "form-delete", .str "form-edit"])
    (.obj [("decoded", .obj [("payload",
          .obj [("serviceId", .str "test-service-001"),
                ("serviceName", .str "Test Service")])])])
    (.str "test-service-001")
    (validResult (.str "test-service-001") (.str "Test Service")
      (.arr [.str "form-delete", .str "form-edit"]))
    []
    (by simp [validateServiceCredentials, JSValue.get, JSValue.lookupField, JSValue.truthy])
    (by simp [validResult, JSValue.get, JSValue.lookupField])).1

/-- C6, as stated, fails: the payload `{serviceId: 42, serviceName: 'Test Service'}` is
admitted, and the `credentials.user.id` of the result is the number 42, not a string. -/
theorem validateServiceCredentials_non_string_admitted :
    ¬ ∀ (getDefaultScopes : Unit → JSValue) (artifacts result id displayName : JSValue)
        (log : Log),
        (validateServiceCredentials getDefaultScopes artifacts log).1 = .ok result →
        result.get "isValid" = .ok (.bool true) →
        result.getPath ["credentials", "user", "id"] = .ok id →
        result.getPath ["credentials", "user", "displayName"] = .ok displayName →
        id.isString = true ∧ displayName.isString = true := by
  intro h
  have h2 := h (fun _ => .arr [.str "form-read"])
    (.obj [("decoded", .obj [("payload",
          .obj [("serviceId", .num 42), ("serviceName", .str "Test Service")])])])
    (validResult (.num 42) (.str "Test Service") (.arr [.str "form-read"]))
    (.num 42) (.str "Test Service") []
    (by simp [validateServiceCredentials, JSValue.get, JSValue.lookupField, JSValue.truthy])
    (by simp [validResult, JSValue.get, JSValue.lookupField])
    (by simp [validResult, JSValue.getPath, JSValue.get, JSValue.lookupField])
    (by simp [validResult, JSValue.getPath, JSValue.get, JSValue.lookupField])
  simp [JSValue.isString] at h2

/-- C6, amended: whenever `validateServiceCredentials` returns `isValid: true`,
`credentials.user.id` and `credentials.user.displayName` are the payload's own `serviceId`
and `serviceName`, unchanged and both truthy; so when the payload's two fields are strings,
as the `ServiceCredentials` type declares them, the admitted identity consists of two
non-empty strings. The gate tests truthiness only, not the type. -/
theorem validateServiceCredentials_identity (getDefaultScopes : Unit → JSValue)
    (artifacts result : JSValue) (log : Log)
    (hrun : (validateServiceCredentials getDefaultScopes artifacts log).1 = .ok result)
    (hvalid : result.get "isValid" = .ok (.bool true)) :
    ∃ serviceId serviceName,
      artifacts.getPath ["decoded", "payload", "serviceId"] = .ok serviceId ∧
      artifacts.getPath ["decoded", "payload", "serviceName"] = .ok serviceName ∧
      result.getPath ["credentials", "user", "id"] = .ok serviceId ∧
      result.getPath ["credentials", "user", "displayName"] = .ok serviceName ∧
      serviceId.truthy = true ∧ serviceName.truthy = true ∧
      (serviceId.isString = true → ∃ s, serviceId = .str s ∧ s ≠ "") ∧
      (serviceName.isString = true → ∃ s, serviceName = .str s ∧ s ≠ "") := by
  obtain ⟨sid, sname, hsid, hsname, h1, h2, hres, _⟩ :=
    validateServiceCredentials_valid_inv getDefaultScopes artifacts result log hrun hvalid
  subst hres
  refine ⟨sid, sname, hsid, hsname, ?_, ?_, h1, h2, ?_, ?_⟩
  · simp [validResult, JSValue.getPath, JSValue.get, JSValue.lookupField]
  · simp [validResult, JSValue.getPath, JSValue.get, JSValue.lookupField]
  · intro hs
    cases sid <;> simp [JSValue.isString] at hs
    simpa [JSValue.truthy] using h1
  · intro hs
    cases sname <;> simp [JSValue.isString] at hs
    simpa [JSValue.truthy] using h2

/-- Witness for the amended C6 on the token of the unit test. -/
theorem validateServiceCredentials_identity_witness :
    ∃ serviceId serviceName,
      (JSValue.obj [("decoded", .obj [("payload",
          .obj [("serviceId", .str "test-service-001"),
                ("serviceName", .str "Test Service")])])]).getPath
        ["decoded", "payload", "serviceId"] = .ok serviceId ∧
      (JSValue.obj [("decoded", .obj [("payload",
          .obj [("serviceId", .str "test-service-001"),
                ("serviceName", .str "Test Service")])])]).getPath
        ["decoded", "payload", "serviceName"] = .ok serviceName ∧
      (validResult (.str "test-service-001") (.str "Test Service")
        (.arr [.str "form-read"])).getPath ["credentials", "user", "id"] = .ok serviceId ∧
      (validResult (.str "test-service-001") (.str "Test Service")
        (.arr [.str "form-read"])).getPath ["credentials", "user", "displayName"] =
          .ok serviceName ∧
      serviceId.truthy = true ∧ serviceName.truthy = true ∧
      (serviceId.isString = true → ∃ s, serviceId = .str s ∧ s ≠ "") ∧
      (serviceName.isString = true → ∃ s, serviceName = .str s ∧ s ≠ "") :=
  validateServiceCredentials_identity (fun _ => .arr [.str "form-read"])
    (.obj [("decoded", .obj [("payload",
          .obj [("serviceId", .str "test-service-001"),
                ("serviceName", .str "Test Service")])])])
    (validResult (.str "test-service-001") (.str "Test Service") (.arr [.str "form-read"]))
    []
    (by simp [validateServiceCredentials, JSValue.get, JSValue.lookupField, JSValue.truthy])
    (by simp [validResult, JSValue.get, JSValue.lookupField])

/-- C7: registering the auth plugin makes exactly three calls on the server, in this
order: `server.register(Jwt)`; `server.auth.strategy('jwt-service', 'jwt', options)` with
`options.keys` the configured `jwtSecret`, `options.verify` the object
`{aud: false, iss: false, sub: false, nbf: true, exp: true}` and `options.validate` the
function `validateServiceCredentials`; `server.auth.default('jwt-service')`. -/
theorem auth_plugin_register_calls (config : Config) (getDefaultScopes : Unit → JSValue)
    (server : Server) :
    auth.plugin.register config getDefaultScopes server =
      server ++
        [ServerCall.register Jwt,
         ServerCall.authStrategy "jwt-service" "jwt"
           { keys := config.jwtSecret
             verify := .obj [("aud", .bool false), ("iss", .bool false), ("sub", .bool false),
                             ("nbf", .bool true), ("exp", .bool true)]
             validate := validateServiceCredentials getDefaultScopes },
         ServerCall.authDefault "jwt-service"] := by
  simp [auth.plugin.register, Server.register, Server.authStrategy, Server.authDefault,
    jwtVerifyOptions]

/-! ## The author helper -/

/-- C8: for every user whose `id` and `displayName` are both truthy (present, non-empty),
`getAuthor` returns the author `{id: user.id, displayName: user.displayName}`. -/
theorem getAuthor_returns_author (user id displayName : JSValue)
    (hid : user.get "id" = .ok id)
    (hname : user.get "displayName" = .ok displayName)
    (hidPresent : id.truthy = true)
    (hnamePresent : displayName.truthy = true) :
    getAuthor user = .ok (.obj [("id", id), ("displayName", displayName)]) := by
  have hu : user.isNullish = false :=
    JSValue.not_nullish_of_truthy (JSValue.truthy_of_get_truthy hid hidPresent)
  simp [getAuthor, JSValue.getOpt, hu, hid, hname, hidPresent, hnamePresent]

/-- Witness for C8 on the user of the unit test. -/
theorem getAuthor_returns_author_witness :
    getAuthor (.obj [("id", .str "86758ba9-92e7-4287-9751-7705e449688e"),
                     ("displayName", .str "Enrique Chase"),
                     ("scope", .arr [.str "form-read"])]) =
      .ok (.obj [("id", .str "86758ba9-92e7-4287-9751-7705e449688e"),
                 ("displayName", .str "Enrique Chase")]) :=
  getAuthor_returns_author _ (.str "86758ba9-92e7-4287-9751-7705e449688e")
    (.str "Enrique Chase")
    (by simp [JSValue.get, JSValue.lookupField])
    (by simp [JSValue.get, JSValue.lookupField])
    (by simp [JSValue.truthy]) (by simp [JSValue.truthy])

/-- C9: `getAuthor` throws if and only if the user is `undefined`, or its `id` is missing,
or its `displayName` is missing, where a property is missing when it reads as a falsy value
(absent, or empty); and whatever it throws is the Boom unauthorized error, HTTP 401, with
the message 'Failed to get the author. User is undefined or has a malformed/missing
id/displayName.'. -/
theorem getAuthor_throws_iff (user : JSValue) :
    ((∃ e, getAuthor user = .error e) ↔
      (user = .undefined ∨ user.missing "id" = true ∨ user.missing "displayName" = true)) ∧
    (∀ e, getAuthor user = .error e →
      e = .boom 401 "Unauthorized"
        "Failed to get the author. User is undefined or has a malformed/missing id/displayName.") := by
  cases hn : user.isNullish with
  | true =>
    have hrun : getAuthor user = .error (Boom.unauthorized getAuthorMessage) := by
      simp [getAuthor, JSValue.getOpt, hn, JSValue.truthy]
    refine ⟨⟨fun _ => Or.inr (Or.inl ?_), fun _ => ⟨_, hrun⟩⟩, ?_⟩
    · simp [JSValue.missing, JSValue.getOpt, hn, JSValue.truthy]
    · intro e he
      rw [hrun] at he
      injection he with he
      rw [← he]
      rfl
  | false =>
    obtain ⟨id, hid⟩ := JSValue.get_ok_of_not_nullish "id" hn
    obtain ⟨displayName, hname⟩ := JSValue.get_ok_of_not_nullish "displayName" hn
    have hundef : user ≠ .undefined := by
      intro h
      subst h
      simp [JSValue.isNullish] at hn
    cases h1 : id.truthy <;> cases h2 : displayName.truthy <;>
      simp [getAuthor, JSValue.missing, JSValue.getOpt, hn, hid, hname, h1, h2, hundef,
        Boom.unauthorized, getAuthorMessage]

/-! ## The Migration Engine -/

/-- The page loop leaves a page list unchanged when every page carries an id and is in
normal form, whatever the state of the id generator. -/
theorem migratePages_eq_self (canonical : Page → Page) (newId : Nat → String) (k : Nat)
    (pages : List Page)
    (h : pages.all (fun p => p.id.isSome && decide (normalizePage canonical p = p)) = true) :
    migratePages canonical newId k pages = pages := by
  induction pages generalizing k with
  | nil => rfl
  | cons page rest ih =>
    simp only [List.all_cons, Bool.and_eq_true, decide_eq_true_eq] at h
    obtain ⟨⟨hid, hnorm⟩, hrest⟩ := h
    cases hpid : page.id with
    | none => simp [hpid] at hid
    | some i =>
      simp only [migratePages, hpid]
      rw [hnorm, ih k hrest]

/-- Every page the page loop produces carries an id and is a page that the normalisation
produces. -/
theorem migratePages_shape (canonical : Page → Page) (newId : Nat → String) (k : Nat)
    (pages : List Page) :
    ∀ p ∈ migratePages canonical newId k pages,
      p.id.isSome = true ∧ ∃ q, p = normalizePage canonical q := by
  induction pages generalizing k with
  | nil =>
    intro p hp
    simp [migratePages] at hp
  | cons page rest ih =>
    intro p hp
    cases hid : page.id with
    | some i =>
      simp only [migratePages, hid, List.mem_cons] at hp
      rcases hp with hp | hp
      · subst hp
        refine ⟨?_, page, rfl⟩
        unfold normalizePage
        cases page.controller <;> simp [hid]
      · exact ih k p hp
    | none =>
      simp only [migratePages, hid, List.mem_cons] at hp
      rcases hp with hp | hp
      · subst hp
        refine ⟨?_, { page with id := some (newId k) }, rfl⟩
        unfold normalizePage
        cases page.controller <;> simp
      · exact ih (k + 1) p hp

/-- What a migration returns is in the V2 shape. -/
theorem migrateDefinitionToV2_shape (canonical : Page → Page) (newId : Nat → String)
    (definition migrated : FormDefinition)
    (h : migrateDefinitionToV2 canonical newId definition = .ok migrated) :
    IsV2Shape canonical migrated := by
  unfold migrateDefinitionToV2 at h
  cases hc : structurallyConsistent definition with
  | false => simp [hc] at h
  | true =>
    simp only [hc, Bool.not_true, Bool.false_eq_true, if_false, Except.ok.injEq] at h
    subst h
    refine ⟨rfl, ?_⟩
    intro p hp
    obtain ⟨hid, hq⟩ := migratePages_shape canonical newId 0 definition.pages p hp
    exact ⟨hid, fun _ => hq⟩

/-- With a stable canonical-shape builder the page loop leaves the pages of a V2-shaped
definition as they are. -/
theorem migratePages_of_shape (canonical : Page → Page) (newId : Nat → String)
    (definition : FormDefinition) (hstable : StableCanonical canonical)
    (hshape : IsV2Shape canonical definition) :
    migratePages canonical newId 0 definition.pages = definition.pages := by
  apply migratePages_eq_self
  rw [List.all_eq_true]
  intro p hp
  obtain ⟨hid, hcanonical⟩ := hshape.2 p hp
  simp only [Bool.and_eq_true, decide_eq_true_eq]
  refine ⟨hid, ?_⟩
  cases hcontroller : p.controller with
  | none => simp [normalizePage, hcontroller]
  | some c =>
    obtain ⟨q, hq⟩ := hcanonical (by simp [hcontroller])
    rw [hq]
    exact hstable q

/-- C10, as stated, fails: a definition in the V2 shape is not always returned. The
definition `sampleDuplicatePaths` has engine V2 and two pages carrying ids, none of them
controller-designated, but the two pages share a path; the migration rejects it as
structurally invalid instead of returning it, also with a stable canonical-shape builder. -/
theorem migrateDefinitionToV2_rejects_v2_duplicates :
    ¬ ∀ (canonical : Page → Page) (newId : Nat → String) (definition : FormDefinition),
        StableCanonical canonical → IsV2Shape canonical definition →
        migrateDefinitionToV2 canonical newId definition = .ok definition := by
  intro h
  have hstable : StableCanonical sampleCanonical := by
    intro p
    unfold normalizePage
    cases hc : p.controller <;> simp [hc, sampleCanonical]
  have hshape : IsV2Shape sampleCanonical sampleDuplicatePaths := by
    refine ⟨rfl, ?_⟩
    intro p hp
    simp only [sampleDuplicatePaths, List.mem_cons, List.mem_singleton,
      List.not_mem_nil, or_false] at hp
    rcases hp with hp | hp <;> subst hp <;> simp
  have hrun := h sampleCanonical (fun k => toString k) sampleDuplicatePaths hstable hshape
  have hinconsistent : structurallyConsistent sampleDuplicatePaths = false := by decide
  have hrejected : migrateDefinitionToV2 sampleCanonical (fun k => toString k)
      sampleDuplicatePaths = .error ApiError.StructuralInvalid := by
    simp [migrateDefinitionToV2, hinconsistent]
  rw [hrejected] at hrun
  cases hrun

/-- C10, amended: migration to V2 is idempotent on the definitions that pass the structural
validation. With a stable canonical-shape builder, a definition already in the V2 shape
(engine V2, every page carrying an id, every controller-designated page restated in the
canonical shape) that passes the structural validation is returned as it is: same pages,
same order, same ids, whatever ids the generator would hand out; one that does not pass
(duplicate paths, orphaned `next` target) is rejected. In particular, migrating again what
a migration returned gives it back unchanged when it passes the validation. -/
theorem migrateDefinitionToV2_idempotent (canonical : Page → Page) (newId : Nat → String)
    (definition : FormDefinition)
    (hstable : StableCanonical canonical)
    (hshape : IsV2Shape canonical definition) :
    (structurallyConsistent definition = true →
      migrateDefinitionToV2 canonical newId definition = .ok definition) ∧
    (structurallyConsistent definition = false →
      migrateDefinitionToV2 canonical newId definition =
        .error ApiError.StructuralInvalid) ∧
    (∀ (source migrated : FormDefinition) (newId1 newId2 : Nat → String),
      migrateDefinitionToV2 canonical newId1 source = .ok migrated →
      structurallyConsistent migrated = true →
      migrateDefinitionToV2 canonical newId2 migrated = .ok migrated) := by
  have hreturn : ∀ (d : FormDefinition) (gen : Nat → String), IsV2Shape canonical d →
      structurallyConsistent d = true → migrateDefinitionToV2 canonical gen d = .ok d := by
    intro d gen hd hconsistent
    have hsame := migratePages_of_shape canonical gen d hstable hd
    simp only [migrateDefinitionToV2, hconsistent, hsame, ← hd.1]
    rfl
  refine ⟨hreturn definition newId hshape, ?_, ?_⟩
  · intro hinconsistent
    simp [migrateDefinitionToV2, hinconsistent]
  · intro source migrated newId1 newId2 hrun hconsistent
    exact hreturn migrated newId2
      (migrateDefinitionToV2_shape canonical newId1 source migrated hrun) hconsistent

/-- Witness for the amended C10 on `sampleV2Definition`, a two-page V2 definition ending in
a summary page, with the builder that makes a controller-designated page terminal. -/
theorem migrateDefinitionToV2_idempotent_witness :
    migrateDefinitionToV2 sampleCanonical (fun k => toString k) sampleV2Definition =
      .ok sampleV2Definition :=
  (migrateDefinitionToV2_idempotent sampleCanonical (fun k => toString k) sampleV2Definition
    (by
      intro p
      unfold normalizePage
      cases hc : p.controller <;> simp [hc, sampleCanonical])
    ⟨rfl, by
      intro p hp
      simp only [sampleV2Definition, List.mem_cons, List.mem_singleton,
        List.not_mem_nil, or_false] at hp
      rcases hp with hp | hp
      · subst hp
        simp
      · subst hp
        refine ⟨rfl, fun _ => ⟨sampleSummaryPage "page-2" "/summary", ?_⟩⟩
        simp [normalizePage, sampleCanonical, sampleSummaryPage]⟩).1 (by decide)

/-! ## Audit events -/

/-- C16: `publishEvent` sends to the topic if and only if the flag `publishAuditEvents` is
enabled, and the flag is disabled by default. With the flag false it returns `undefined`
and sends no publish command; with the flag true it sends exactly one publish command,
whose `TopicArn` is the configured `snsTopicArn` and whose `Message` is the JSON
serialisation of the message. -/
theorem publishEvent_sends_iff_enabled (config : Config) (stringify : JSValue → String)
    (reply : PublishCommand → JSValue) (message : JSValue) (sent : List PublishCommand) :
    (config.publishAuditEvents = false →
      publishEvent config stringify reply message sent = (.undefined, sent)) ∧
    (config.publishAuditEvents = true →
      (publishEvent config stringify reply message sent).2 =
        sent ++ [{ TopicArn := config.snsTopicArn, Message := stringify message }]) ∧
    ((publishEvent config stringify reply message sent).2 ≠ sent ↔
      config.publishAuditEvents = true) ∧
    Config.schemaDefaults.publishAuditEvents = false := by
  refine ⟨?_, ?_, ?_, rfl⟩
  · intro h
    simp [publishEvent, h]
  · intro h
    simp [publishEvent, h]
  · cases h : config.publishAuditEvents <;> simp [publishEvent, h]

/-! ## Token generation -/

/-- An integer of magnitude at most `2^53` is a double. -/
theorem roundToDouble_of_safe (x : Int) (h : x.natAbs ≤ 2 ^ 53) : roundToDouble x = x := by
  unfold roundToDouble
  exact if_pos h

/-- C20, as stated, fails: `exp` is a sum of doubles. With the clock at 1000 ms, so that
`iat = nbf = 1`, and `expiresIn = 9007199254740992`, which is `2^53`, the payload carries
`exp = 9007199254740992`, not `iat + expiresIn = 9007199254740993`, and `exp - nbf` is not
`expiresIn`. The signing function chosen here tells the two values of `exp` apart. -/
theorem generateTestToken_expiry_rounded :
    ¬ ∀ (generate : JSValue → String → String → String) (dateNow : Int)
        (jwtSecret serviceId serviceName : String) (expiresIn : Int),
        ∃ iat nbf exp : Int,
          generateTestToken generate dateNow (some jwtSecret)
              (some { serviceId := some serviceId, serviceName := some serviceName,
                      expiresIn := some expiresIn }) =
            generate
              (.obj [("serviceId", .str serviceId), ("serviceName", .str serviceName),
                     ("iat", .num iat), ("nbf", .num nbf), ("exp", .num exp)])
              jwtSecret "HS256" ∧
          iat = Int.fdiv dateNow 1000 ∧ nbf = iat ∧ exp = iat + expiresIn ∧
          exp - nbf = expiresIn := by
  intro h
  obtain ⟨iat, nbf, exp, heq, hiat, hnbf, hexp, _⟩ :=
    h (fun payload _ _ =>
        match payload.get "exp" with
        | .ok (.num n) => if n = 9007199254740992 then "rounded" else "exact"
        | _ => "no expiry")
      1000 "secret" "s1" "Service" 9007199254740992
  subst hexp hnbf hiat
  have hleft : generateTestToken
      (fun payload _ _ =>
        match payload.get "exp" with
        | .ok (.num n) => if n = 9007199254740992 then "rounded" else "exact"
        | _ => "no expiry")
      1000 (some "secret")
      (some { serviceId := some "s1", serviceName := some "Service",
              expiresIn := some 9007199254740992 }) = "rounded" := by
    rfl
  rw [hleft] at heq
  have hright : (match (JSValue.obj [("serviceId", .str "s1"), ("serviceName", .str "Service"),
        ("iat", .num (Int.fdiv 1000 1000)), ("nbf", .num (Int.fdiv 1000 1000)),
        ("exp", .num (Int.fdiv 1000 1000 + 9007199254740992))]).get "exp" with
      | .ok (.num n) => if n = 9007199254740992 then "rounded" else "exact"
      | _ => "no expiry") = "exact" := by
    rfl
  rw [hright] at heq
  exact absurd heq (by decide)

/-- C20, amended: for every secret, `serviceId`, `serviceName` and whole number `expiresIn`
for which `iat + expiresIn` is at most `2^53` in magnitude, `generateTestToken` signs with
HS256 and the given secret a payload with exactly the claims `serviceId`, `serviceName`,
`iat = nbf = floor(Date.now() / 1000)` and `exp = iat + expiresIn`, so that `exp - nbf` is
`expiresIn`; with the arguments left out the secret is 'change-me-in-production', the
identity is 'test-service-001' / 'Test Service' and `expiresIn` is 7,776,000 seconds. -/
theorem generateTestToken_payload (generate : JSValue → String → String → String)
    (dateNow : Int) (jwtSecret serviceId serviceName : String) (expiresIn : Int)
    (hsafe : (Int.fdiv dateNow 1000 + expiresIn).natAbs ≤ 2 ^ 53)
    (hsafeDefault : (Int.fdiv dateNow 1000 + 7776000).natAbs ≤ 2 ^ 53) :
    (∃ iat nbf exp : Int,
      generateTestToken generate dateNow (some jwtSecret)
          (some { serviceId := some serviceId, serviceName := some serviceName,
                  expiresIn := some expiresIn }) =
        generate
          (.obj [("serviceId", .str serviceId), ("serviceName", .str serviceName),
                 ("iat", .num iat), ("nbf", .num nbf), ("exp", .num exp)])
          jwtSecret "HS256" ∧
      iat = Int.fdiv dateNow 1000 ∧ nbf = iat ∧ exp = iat + expiresIn ∧
      exp - nbf = expiresIn) ∧
    (∃ iat nbf exp : Int,
      generateTestToken generate dateNow none none =
        generate
          (.obj [("serviceId", .str "test-service-001"), ("serviceName", .str "Test Service"),
                 ("iat", .num iat), ("nbf", .num nbf), ("exp", .num exp)])
          "change-me-in-production" "HS256" ∧
      iat = Int.fdiv dateNow 1000 ∧ nbf = iat ∧ exp = iat + 7776000 ∧
      exp - nbf = 7776000) := by
  have h1 : jsAdd (Int.fdiv dateNow 1000) expiresIn = Int.fdiv dateNow 1000 + expiresIn :=
    roundToDouble_of_safe _ hsafe
  have h2 : jsAdd (Int.fdiv dateNow 1000) (86400 * 90) = Int.fdiv dateNow 1000 + 7776000 :=
    roundToDouble_of_safe _ hsafeDefault
  refine ⟨⟨Int.fdiv dateNow 1000, Int.fdiv dateNow 1000, Int.fdiv dateNow 1000 + expiresIn,
      ?_, rfl, rfl, rfl, by omega⟩,
    ⟨Int.fdiv dateNow 1000, Int.fdiv dateNow 1000, Int.fdiv dateNow 1000 + 7776000,
      ?_, rfl, rfl, rfl, by omega⟩⟩
  · simp only [generateTestToken, testTokenPayload, Option.getD_some, h1]
  · simp only [generateTestToken, testTokenPayload, Option.getD_none, h2]

/-- Witness for the amended C20: a token for one hour, built at the clock reading
1700000000123 ms. -/
theorem generateTestToken_payload_witness :
    ∃ iat nbf exp : Int,
      generateTestToken (fun _ key _ => "token signed with " ++ key) 1700000000123
          (some "secret")
          (some { serviceId := some "s1", serviceName := some "Service",
                  expiresIn := some 3600 }) =
        (fun _ key _ => "token signed with " ++ key)
          (JSValue.obj [("serviceId", .str "s1"), ("serviceName", .str "Service"),
                 ("iat", .num iat), ("nbf", .num nbf), ("exp", .num exp)])
          "secret" "HS256" ∧
      iat = Int.fdiv 1700000000123 1000 ∧ nbf = iat ∧ exp = iat + 3600 ∧
      exp - nbf = 3600 :=
  (generateTestToken_payload (fun _ key _ => "token signed with " ++ key) 1700000000123
    "secret" "s1" "Service" 3600 (by decide) (by decide)).1

/-- C19, evaluated where it fails: the script reads the clock once for each of `iat`, `nbf`
and `exp`. When the readings are 1999 ms, 2000 ms and 2000 ms the token is still signed
with HS256 and the secret and carries the two identity claims, but `iat` is 1, `nbf` is 2
and `exp` is 7776002: `nbf` differs from `iat` and `exp` lies 7,776,001 seconds after
`iat`. -/
theorem generateTokenScript_clock_tick (generate : JSValue → String → String → String)
    (parse : String → Except JSError JSValue) (stringify : JSValue → String) :
    (generateTokenScript generate parse stringify
        { jwtSecret := some "secret", argv := ["node", "generate-token.js"],
          clock := fun k => if k = 0 then 1999 else 2000,
          file := .error (.system "ENOENT" "no such file or directory") }).stdout =
      [generate
        (.obj [("serviceId", .str "test-service-001"), ("serviceName", .str "Test Service"),
               ("iat", .num 1), ("nbf", .num 2), ("exp", .num 7776002)])
        "secret" "HS256"] := by
  have h0 : Int.fdiv 1999 1000 = 1 := by decide
  have h1 : Int.fdiv 2000 1000 = 2 := by decide
  simp [generateTokenScript, scriptTokenPayload, h0, h1]

/-- Reading back the key that was written yields the value written. -/
theorem JSValue.lookupField_setField_self (key : String) (x : JSValue)
    (fields : List (String × JSValue)) :
    JSValue.lookupField key (JSValue.setField key x fields) = x := by
  induction fields with
  | nil => simp [JSValue.setField, JSValue.lookupField]
  | cons entry rest ih =>
    obtain ⟨k, v⟩ := entry
    by_cases hk : k = key
    · simp [JSValue.setField, JSValue.lookupField, hk]
    · simp [JSValue.setField, JSValue.lookupField, hk, ih]

/-- A write leaves every other key as it was. -/
theorem JSValue.lookupField_setField_of_ne {key other : String} (x : JSValue)
    (fields : List (String × JSValue)) (hne : other ≠ key) :
    JSValue.lookupField other (JSValue.setField key x fields) =
      JSValue.lookupField other fields := by
  induction fields with
  | nil =>
    have hne2 : ¬ key = other := fun h => hne h.symm
    simp [JSValue.setField, JSValue.lookupField, hne2]
  | cons entry rest ih =>
    obtain ⟨k, v⟩ := entry
    by_cases hk : k = key
    · have hko : ¬ k = other := fun h => hne (h.symm.trans hk)
      simp [JSValue.setField, JSValue.lookupField, hk]
      subst hk
      simp [hko]
    · by_cases hko : k = other
      · subst hko
        simp [JSValue.setField, JSValue.lookupField, hk]
      · simp [JSValue.setField, JSValue.lookupField, hk, hko, ih]

/-- On a configuration object whose `local` is absent, `null` or an object, the two
assignments of the `--save` branch succeed, put the token under `local.authToken` and
leave every other key of the configuration and of `local` as it was. -/
theorem setLocalAuthToken_object (fields : List (String × JSValue)) (token : String)
    (hlocal : (JSValue.lookupField "local" fields).isNullish = true ∨
      (JSValue.lookupField "local" fields).isObject = true) :
    ∃ fields2 localFields2,
      setLocalAuthToken (.obj fields) token = .ok (.obj fields2) ∧
      JSValue.lookupField "local" fields2 = .obj localFields2 ∧
      JSValue.lookupField "authToken" localFields2 = .str token ∧
      (∀ key, key ≠ "local" →
        JSValue.lookupField key fields2 = JSValue.lookupField key fields) ∧
      (∀ localFields, JSValue.lookupField "local" fields = .obj localFields →
        ∀ key, key ≠ "authToken" →
          JSValue.lookupField key localFields2 = JSValue.lookupField key localFields) ∧
      ((JSValue.lookupField "local" fields).isNullish = true →
        localFields2 = [("authToken", .str token)]) := by
  rcases hlocal with hnull | hobj
  · refine ⟨JSValue.setField "local" (.obj [("authToken", .str token)])
        (JSValue.setField "local" (.obj []) fields), [("authToken", .str token)], ?_, ?_, ?_,
        ?_, ?_, fun _ => rfl⟩
    · simp [setLocalAuthToken, JSValue.get, JSValue.set, hnull, JSValue.setField]
    · exact JSValue.lookupField_setField_self _ _ _
    · simp [JSValue.lookupField]
    · intro key hkey
      rw [JSValue.lookupField_setField_of_ne _ _ hkey,
        JSValue.lookupField_setField_of_ne _ _ hkey]
    · intro localFields hl
      rw [hl] at hnull
      simp [JSValue.isNullish] at hnull
  · cases hl : JSValue.lookupField "local" fields with
    | obj localFields =>
      refine ⟨JSValue.setField "local"
          (.obj (JSValue.setField "authToken" (.str token) localFields)) fields,
        JSValue.setField "authToken" (.str token) localFields, ?_, ?_, ?_, ?_, ?_, ?_⟩
      · simp [setLocalAuthToken, JSValue.get, JSValue.set, hl, JSValue.isNullish]
      · exact JSValue.lookupField_setField_self _ _ _
      · exact JSValue.lookupField_setField_self _ _ _
      · intro key hkey
        exact JSValue.lookupField_setField_of_ne _ _ hkey
      · intro localFields2 hl2 key hkey
        injection hl2 with hl2
        subst hl2
        exact JSValue.lookupField_setField_of_ne _ _ hkey
      · intro hnull
        simp [JSValue.isNullish] at hnull
    | undefined => rw [hl] at hobj; simp [JSValue.isObject] at hobj
    | null => rw [hl] at hobj; simp [JSValue.isObject] at hobj
    | bool b => rw [hl] at hobj; simp [JSValue.isObject] at hobj
    | num n => rw [hl] at hobj; simp [JSValue.isObject] at hobj
    | nan => rw [hl] at hobj; simp [JSValue.isObject] at hobj
    | str t => rw [hl] at hobj; simp [JSValue.isObject] at hobj
    | arr items => rw [hl] at hobj; simp [JSValue.isObject] at hobj

/-- C18: a run of the script with `--save` and a secret writes the configuration with the
generated token under `local.authToken` and nothing else changed. When the file does not
exist (`readFile` fails with `ENOENT`) the text written is the serialisation of exactly
`{local: {authToken: token}}`, followed by a newline. When the file holds a JSON object
whose `local` is absent, `null` or an object, the text written is the serialisation of an
object in which `local.authToken` is the token, every other top-level key has its previous
value and every other key of an existing `local` object has its previous value. -/
theorem generateTokenScript_save_frame (generate : JSValue → String → String → String)
    (parse : String → Except JSError JSValue) (stringify : JSValue → String)
    (input : ScriptInput) (secret : String)
    (hsecret : input.jwtSecret = some secret) (hpresent : secret ≠ "")
    (hsave : input.argv.contains "--save" = true) :
    (∀ e, input.file = .error e → e.code = some "ENOENT" →
      (generateTokenScript generate parse stringify input).written =
        some (stringify (.obj [("local", .obj [("authToken",
          .str (generate (scriptTokenPayload input.clock) secret "HS256"))])]) ++ "\n")) ∧
    (∀ fileContent fields, input.file = .ok fileContent →
      parse fileContent = .ok (.obj fields) →
      ((JSValue.lookupField "local" fields).isNullish = true ∨
        (JSValue.lookupField "local" fields).isObject = true) →
      ∃ fields2 localFields2,
        (generateTokenScript generate parse stringify input).written =
          some (stringify (.obj fields2) ++ "\n") ∧
        JSValue.lookupField "local" fields2 = .obj localFields2 ∧
        JSValue.lookupField "authToken" localFields2 =
          .str (generate (scriptTokenPayload input.clock) secret "HS256") ∧
        (∀ key, key ≠ "local" →
          JSValue.lookupField key fields2 = JSValue.lookupField key fields) ∧
        (∀ localFields, JSValue.lookupField "local" fields = .obj localFields →
          ∀ key, key ≠ "authToken" →
            JSValue.lookupField key localFields2 = JSValue.lookupField key localFields)) := by
  have hmem : "--save" ∈ input.argv := by simpa using hsave
  constructor
  · intro e hfile hcode
    simp [generateTokenScript, hsecret, hpresent, hmem, savedEnvFile, loadEnvFile, hfile,
      hcode, setLocalAuthToken, JSValue.get, JSValue.set, JSValue.lookupField,
      JSValue.setField, JSValue.isNullish]
  · intro fileContent fields hfile hparse hlocal
    obtain ⟨fields2, localFields2, hset, h1, h2, h3, h4, _⟩ :=
      setLocalAuthToken_object fields
        (generate (scriptTokenPayload input.clock) secret "HS256") hlocal
    refine ⟨fields2, localFields2, ?_, h1, h2, h3, h4⟩
    simp [generateTokenScript, hsecret, hpresent, hmem, savedEnvFile, loadEnvFile, hfile,
      hparse, hset]

/-- Witness for C18: the file holds `{"dev": 1, "local": {"host": "h"}}`; the text written
serialises an object that still has `dev` and `local.host` and has the token under
`local.authToken`. -/
theorem generateTokenScript_save_frame_witness :
    ∃ fields2 localFields2,
      (generateTokenScript (fun _ key _ => "token signed with " ++ key)
          (fun _ => .ok (.obj [("dev", .num 1), ("local", .obj [("host", .str "h")])]))
          (fun _ => "json")
          { jwtSecret := some "secret", argv := ["node", "generate-token.js", "--save"],
            clock := fun _ => 2000, file := .ok "text of the file" }).written =
        some ((fun _ => "json") (JSValue.obj fields2) ++ "\n") ∧
      JSValue.lookupField "local" fields2 = .obj localFields2 ∧
      JSValue.lookupField "authToken" localFields2 = .str "token signed with secret" ∧
      (∀ key, key ≠ "local" →
        JSValue.lookupField key fields2 =
          JSValue.lookupField key [("dev", .num 1), ("local", .obj [("host", .str "h")])]) ∧
      (∀ localFields,
        JSValue.lookupField "local" [("dev", .num 1), ("local", .obj [("host", .str "h")])] =
          .obj localFields →
        ∀ key, key ≠ "authToken" →
          JSValue.lookupField key localFields2 = JSValue.lookupField key localFields) :=
  (generateTokenScript_save_frame (fun _ key _ => "token signed with " ++ key)
    (fun _ => .ok (.obj [("dev", .num 1), ("local", .obj [("host", .str "h")])]))
    (fun _ => "json")
    { jwtSecret := some "secret", argv := ["node", "generate-token.js", "--save"],
      clock := fun _ => 2000, file := .ok "text of the file" }
    "secret" rfl (by decide) (by decide)).2 "text of the file"
    [("dev", .num 1), ("local", .obj [("host", .str "h")])] rfl rfl
    (Or.inr (by simp [JSValue.lookupField, JSValue.isObject]))

/-! ## The Definition Mutator and the Publish Orchestrator -/

/-- No edit of the draft touches the live copy. -/
theorem editDraft_live {α : Type} (op : FormDefinition → Except ApiError (α × FormDefinition))
    (state : FormState) : (editDraft op state).2.live = state.live := by
  unfold editDraft
  cases h : op state.draft with
  | error e => rfl
  | ok result => rfl

/-- No sequence of edits of the draft touches the live copy. -/
theorem editDraft_foldl_live
    (ops : List (FormDefinition → Except ApiError (Unit × FormDefinition)))
    (state : FormState) :
    (ops.foldl (fun s op => (editDraft op s).2) state).live = state.live := by
  induction ops generalizing state with
  | nil => rfl
  | cons op rest ih =>
    simp only [List.foldl_cons]
    rw [ih, editDraft_live]

/-- C12: list names are unique across a definition. Creating a list whose name an existing
list already has, and updating an existing list to a name that a different existing list
has, are both rejected with the conflict error, whose HTTP status is 400, and the draft,
its lists included, and the rest of the stored form are left as they were. -/
theorem list_name_conflict_rejected (newId listId : String) (list : FormList)
    (state : FormState) :
    ((∃ l ∈ state.draft.lists, l.name = list.name) →
      editDraft (addList newId list) state = (.error ApiError.Conflict, state)) ∧
    ((∃ l ∈ state.draft.lists, l.id = some listId) →
      (∃ l ∈ state.draft.lists, l.id ≠ some listId ∧ l.name = list.name) →
      editDraft (updateList listId list) state = (.error ApiError.Conflict, state)) ∧
    ApiError.Conflict.statusCode = some 400 := by
  refine ⟨?_, ?_, rfl⟩
  · rintro ⟨l, hl, hname⟩
    have hany : state.draft.lists.any (fun l => decide (l.name = list.name)) = true := by
      simp only [List.any_eq_true, decide_eq_true_eq]
      exact ⟨l, hl, hname⟩
    simp [editDraft, addList, hany]
  · rintro ⟨t, ht, hid⟩ ⟨l, hl, hother, hname⟩
    have hknown : ¬ ∀ x ∈ state.draft.lists, ¬ x.id = some listId :=
      fun hall => hall t ht hid
    have hany : ∃ x ∈ state.draft.lists, ¬ x.id = some listId ∧ x.name = list.name :=
      ⟨l, hl, hother, hname⟩
    simp [editDraft, updateList, hknown, hany]

/-- Witness for C12 on the sample draft, which has the lists `YhmNDP` and
`PeriodicTable`: creating a second `YhmNDP` and renaming `PeriodicTable` to `YhmNDP` are
both rejected and leave the stored form as it was. -/
theorem list_name_conflict_rejected_witness :
    editDraft (addList "l3"
        { id := none, title := "Again", name := "YhmNDP", type := "string", items := [] })
        sampleState = (.error ApiError.Conflict, sampleState) ∧
    editDraft (updateList "l2"
        { id := none, title := "Again", name := "YhmNDP", type := "string", items := [] })
        sampleState = (.error ApiError.Conflict, sampleState) :=
  ⟨(list_name_conflict_rejected "l3" "l2"
      { id := none, title := "Again", name := "YhmNDP", type := "string", items := [] }
      sampleState).1 (by decide),
   (list_name_conflict_rejected "l3" "l2"
      { id := none, title := "Again", name := "YhmNDP", type := "string", items := [] }
      sampleState).2.1 (by decide) (by decide)⟩

/-- C13: a publish of a draft that passes the structural validation succeeds and makes the
live definition equal to the draft as it is at that moment, leaving the draft as it was;
whatever edits are applied to the draft afterwards, the live copy stays that definition. A
publish of a draft that does not pass fails and changes neither the live copy nor the
draft nor anything else of the stored form. -/
theorem createLiveFromDraft_snapshot (now : Nat) (author : Author) (state : FormState) :
    (structurallyConsistent state.draft = true →
      (createLiveFromDraft now author state).1 = .ok () ∧
      (createLiveFromDraft now author state).2.live = some state.draft ∧
      (createLiveFromDraft now author state).2.draft = state.draft ∧
      ∀ ops : List (FormDefinition → Except ApiError (Unit × FormDefinition)),
        (ops.foldl (fun s op => (editDraft op s).2)
          (createLiveFromDraft now author state).2).live = some state.draft) ∧
    (structurallyConsistent state.draft = false →
      createLiveFromDraft now author state = (.error ApiError.StructuralInvalid, state)) ∧
    (∀ e, (createLiveFromDraft now author state).1 = .error e →
      (createLiveFromDraft now author state).2 = state) := by
  cases h : structurallyConsistent state.draft with
  | true =>
    refine ⟨fun _ => ⟨?_, ?_, ?_, ?_⟩, fun hf => (by cases hf), ?_⟩
    · simp [createLiveFromDraft, h]
    · simp [createLiveFromDraft, h]
    · simp [createLiveFromDraft, h]
    · intro ops
      rw [editDraft_foldl_live]
      simp [createLiveFromDraft, h]
    · intro e he
      simp [createLiveFromDraft, h] at he
  | false =>
    refine ⟨fun ht => (by cases ht), fun _ => ?_, fun e _ => ?_⟩
    · simp [createLiveFromDraft, h]
    · simp [createLiveFromDraft, h]

/-- Witness for C13 on the sample form: publishing it makes the live copy the sample draft,
and adding a list to the draft afterwards leaves the live copy the sample draft. -/
theorem createLiveFromDraft_snapshot_witness :
    (createLiveFromDraft 1700000000 { id := "test-service-001", displayName := "Test Service" }
        sampleState).2.live = some sampleDraft ∧
    ([fun d => (addList "l3"
          { id := none, title := "More", name := "More", type := "string", items := [] } d).map
          (fun r => ((), r.2))].foldl
        (fun s op => (editDraft op s).2)
        (createLiveFromDraft 1700000000
          { id := "test-service-001", displayName := "Test Service" } sampleState).2).live =
      some sampleDraft :=
  ⟨((createLiveFromDraft_snapshot 1700000000
      { id := "test-service-001", displayName := "Test Service" } sampleState).1
      (by decide)).2.1,
   ((createLiveFromDraft_snapshot 1700000000
      { id := "test-service-001", displayName := "Test Service" } sampleState).1
      (by decide)).2.2.2 _⟩

/-- C14: creating a page whose path no existing page has succeeds, returns the page with
the generated id, and a read of the draft then shows that page immediately before the
first summary/terminal page if there is one, else at the end: the previous pages split
into `before`, free of terminal pages, and `after`, empty or starting with a terminal
page, and the new pages are `before`, the created page, `after`, so the previous pages keep
their relative order. Creating a page whose path an existing page has is rejected as a
conflict and leaves the stored form as it was. -/
theorem createPage_position (isTerminal : Page → Bool) (newId : String) (page : Page)
    (state : FormState) :
    ((∀ p ∈ state.draft.pages, p.path ≠ page.path) →
      ∃ before after,
        state.draft.pages = before ++ after ∧
        (∀ p ∈ before, isTerminal p = false) ∧
        (∀ p, after.head? = some p → isTerminal p = true) ∧
        (editDraft (createPage isTerminal newId page) state).1 =
          .ok { page with id := some newId } ∧
        (editDraft (createPage isTerminal newId page) state).2.draft.pages =
          before ++ { page with id := some newId } :: after ∧
        (editDraft (createPage isTerminal newId page) state).2.live = state.live) ∧
    ((∃ p ∈ state.draft.pages, p.path = page.path) →
      editDraft (createPage isTerminal newId page) state =
        (.error ApiError.Conflict, state)) := by
  constructor
  · intro hfree
    have hnone : ¬ ∃ x ∈ state.draft.pages, x.path = page.path :=
      fun ⟨p, hp, he⟩ => hfree p hp he
    refine ⟨state.draft.pages.takeWhile (fun p => !isTerminal p),
      state.draft.pages.dropWhile (fun p => !isTerminal p), ?_, ?_, ?_, ?_, ?_, ?_⟩
    · exact (List.takeWhile_append_dropWhile _ _).symm
    · intro p hp
      have h := List.mem_takeWhile_imp hp
      simpa using h
    · intro p hp
      have h := List.head?_dropWhile_not (fun p => !isTerminal p) state.draft.pages
      rw [hp] at h
      simpa using h
    · simp [editDraft, createPage, hnone]
    · simp [editDraft, createPage, hnone]
    · exact editDraft_live _ _
  · rintro ⟨p, hp, he⟩
    have hany : ∃ x ∈ state.draft.pages, x.path = page.path := ⟨p, hp, he⟩
    simp [editDraft, createPage, hany]

/-- Witness for C14 on the sample draft `[A, B, C, D]`, whose last page `D` is the summary
page: the created page `N` is read back between `C` and `D`. -/
theorem createPage_position_witness :
    (editDraft (createPage sampleIsTerminal "N"
        { id := none, title := "New", path := "/new", controller := none, components := [],
          next := [] }) sampleState).2.draft.pages.map (fun p => p.id) =
      [some "A", some "B", some "C", some "N", some "D"] ∧
    editDraft (createPage sampleIsTerminal "N"
        { id := none, title := "New", path := "/b", controller := none, components := [],
          next := [] }) sampleState = (.error ApiError.Conflict, sampleState) :=
  ⟨by
    obtain ⟨before, after, _, _, _, _, hpages, _⟩ :=
      (createPage_position sampleIsTerminal "N"
        { id := none, title := "New", path := "/new", controller := none, components := [],
          next := [] } sampleState).1 (by decide)
    decide,
   (createPage_position sampleIsTerminal "N"
      { id := none, title := "New", path := "/b", controller := none, components := [],
        next := [] } sampleState).2 (by decide)⟩

/-! ## The Migration Engine on a V1 definition -/

/-- Normalising a page keeps its id, path, title and component list. -/
theorem normalizePage_preserves (canonical : Page → Page) (page : Page) :
    (normalizePage canonical page).id = page.id ∧
    (normalizePage canonical page).path = page.path ∧
    (normalizePage canonical page).title = page.title ∧
    (normalizePage canonical page).components = page.components := by
  unfold normalizePage
  cases page.controller <;> simp

/-- The page loop maps the pages one to one and in order: every migrated page carries an
id, which is the id the page had if it had one, and has the path, title and component list
of the page it comes from. -/
theorem migratePages_pointwise (canonical : Page → Page) (newId : Nat → String) (k : Nat)
    (pages : List Page) :
    List.Forall₂
      (fun p q => q.id.isSome = true ∧ (∀ i, p.id = some i → q.id = some i) ∧
        q.path = p.path ∧ q.title = p.title ∧ q.components = p.components)
      pages (migratePages canonical newId k pages) := by
  induction pages generalizing k with
  | nil => exact List.Forall₂.nil
  | cons page rest ih =>
    cases hid : page.id with
    | some i =>
      simp only [migratePages, hid]
      refine List.Forall₂.cons ?_ (ih k)
      obtain ⟨h1, h2, h3, h4⟩ := normalizePage_preserves canonical page
      refine ⟨?_, ?_, h2, h3, h4⟩
      · rw [h1, hid]; rfl
      · intro j hj
        rw [h1]
        exact hj
    | none =>
      simp only [migratePages, hid]
      refine List.Forall₂.cons ?_ (ih (k + 1))
      obtain ⟨h1, h2, h3, h4⟩ :=
        normalizePage_preserves canonical { page with id := some (newId k) }
      refine ⟨?_, ?_, h2, h3, h4⟩
      · rw [h1]; rfl
      · intro j hj
        rw [hid] at hj
        cases hj

/-- The ids the page loop assigns to the pages that lacked one are, in page order, the ids
drawn from the generator one after the other. -/
theorem migratePages_fresh_ids (canonical : Page → Page) (newId : Nat → String) (k : Nat)
    (pages : List Page) :
    (pages.zip (migratePages canonical newId k pages)).filterMap
        (fun pq => if pq.1.id.isNone then pq.2.id else none) =
      (List.range' k (pages.countP (fun p => p.id.isNone))).map newId := by
  induction pages generalizing k with
  | nil => simp [migratePages]
  | cons page rest ih =>
    cases hid : page.id with
    | some i =>
      simp only [migratePages, hid, List.zip_cons_cons]
      rw [List.filterMap_cons]
      simp only [hid, Option.isNone_some, Bool.false_eq_true, if_false]
      rw [ih k, List.countP_cons_of_neg]
      simp [hid]
    | none =>
      simp only [migratePages, hid, List.zip_cons_cons]
      rw [List.filterMap_cons]
      have hnew : (normalizePage canonical { page with id := some (newId k) }).id =
          some (newId k) := (normalizePage_preserves canonical _).1
      simp only [hid, Option.isNone_none, if_true, hnew]
      rw [ih (k + 1), List.countP_cons_of_pos]
      · simp [List.range'_succ]
      · simp [hid]

/-- C15: migrating a definition that passes the structural validation succeeds, and the
result has the engine field V2 and the pages of the input in the same order, each carrying
an id, its previous id if it had one, and its previous path, title and component list; the
ids given to the pages that lacked one are the ids drawn from the generator, one after the
other in page order. -/
theorem migrateDefinitionToV2_result (canonical : Page → Page) (newId : Nat → String)
    (definition : FormDefinition)
    (hconsistent : structurallyConsistent definition = true) :
    ∃ migrated,
      migrateDefinitionToV2 canonical newId definition = .ok migrated ∧
      migrated.engine = Engine.V2 ∧
      List.Forall₂
        (fun p q => q.id.isSome = true ∧ (∀ i, p.id = some i → q.id = some i) ∧
          q.path = p.path ∧ q.title = p.title ∧ q.components = p.components)
        definition.pages migrated.pages ∧
      (definition.pages.zip migrated.pages).filterMap
          (fun pq => if pq.1.id.isNone then pq.2.id else none) =
        (List.range (definition.pages.countP (fun p => p.id.isNone))).map newId := by
  refine ⟨{ definition with
            engine := Engine.V2
            pages := migratePages canonical newId 0 definition.pages }, ?_, rfl, ?_, ?_⟩
  · simp [migrateDefinitionToV2, hconsistent]
  · exact migratePages_pointwise canonical newId 0 definition.pages
  · rw [List.range_eq_range']
    exact migratePages_fresh_ids canonical newId 0 definition.pages

/-- Witness for C15 on a V1 definition of three pages, the second and the third without an
id: the migrated pages carry the ids `keep`, `new-0`, `new-1`. -/
theorem migrateDefinitionToV2_result_witness :
    ∃ migrated,
      migrateDefinitionToV2 (fun p => { p with next := [] })
          (fun k => "new-" ++ toString k)
          { sampleDraft with
            engine := Engine.V1
            pages := [{ samplePage "keep" "/a" with next := ["/b"] },
                      { samplePage "" "/b" with id := none, next := ["/summary"] },
                      { sampleSummaryPage "" "/summary" with id := none }] } =
        .ok migrated ∧
      migrated.engine = Engine.V2 ∧
      migrated.pages.map (fun p => p.id) = [some "keep", some "new-0", some "new-1"] ∧
      migrated.pages.map (fun p => p.path) = ["/a", "/b", "/summary"] := by
  obtain ⟨migrated, hrun, hengine, _, _⟩ :=
    migrateDefinitionToV2_result (fun p => { p with next := [] })
      (fun k => "new-" ++ toString k)
      { sampleDraft with
        engine := Engine.V1
        pages := [{ samplePage "keep" "/a" with next := ["/b"] },
                  { samplePage "" "/b" with id := none, next := ["/summary"] },
                  { sampleSummaryPage "" "/summary" with id := none }] }
      (by decide)
  have hval : migrated = { sampleDraft with
      engine := Engine.V2
      pages := migratePages (fun p => { p with next := [] })
        (fun k => "new-" ++ toString k) 0
        [{ samplePage "keep" "/a" with next := ["/b"] },
         { samplePage "" "/b" with id := none, next := ["/summary"] },
         { sampleSummaryPage "" "/summary" with id := none }] } := by
    have h2 : migrateDefinitionToV2 (fun p => { p with next := [] })
        (fun k => "new-" ++ toString k)
        { sampleDraft with
          engine := Engine.V1
          pages := [{ samplePage "keep" "/a" with next := ["/b"] },
                    { samplePage "" "/b" with id := none, next := ["/summary"] },
                    { sampleSummaryPage "" "/summary" with id := none }] } = .ok _ := rfl
    rw [h2] at hrun
    injection hrun with hrun
    exact hrun.symm
  subst hval
  exact ⟨_, hrun, hengine, by decide, by decide⟩

/-! ## Reordering pages -/

/-- When the values of a key are pairwise distinct along a list, two members with the same
key are the same member. -/
theorem filterMap_nodup_unique {α β : Type} (f : α → Option β) (l : List α)
    (h : (l.filterMap f).Nodup) {x y : α} {b : β} (hx : x ∈ l) (hy : y ∈ l)
    (hfx : f x = some b) (hfy : f y = some b) : x = y := by
  induction l with
  | nil => cases hx
  | cons a rest ih =>
    have hmem : ∀ z ∈ rest, f z = some b → b ∈ rest.filterMap f :=
      fun z hz hfz => List.mem_filterMap.mpr ⟨z, hz, hfz⟩
    rcases List.mem_cons.mp hx with hxa | hx2
    · rcases List.mem_cons.mp hy with hya | hy2
      · rw [hxa, hya]
      · exfalso
        rw [hxa] at hfx
        rw [List.filterMap_cons_some hfx] at h
        exact (List.nodup_cons.mp h).1 (hmem y hy2 hfy)
    · rcases List.mem_cons.mp hy with hya | hy2
      · exfalso
        rw [hya] at hfy
        rw [List.filterMap_cons_some hfy] at h
        exact (List.nodup_cons.mp h).1 (hmem x hx2 hfx)
      · refine ih ?_ hx2 hy2
        cases hfa : f a with
        | none => rwa [List.filterMap_cons_none hfa] at h
        | some c =>
          rw [List.filterMap_cons_some hfa] at h
          exact (List.nodup_cons.mp h).2

/-- When the values of a key are pairwise distinct along a list, the members that have a
key are pairwise distinct. -/
theorem filter_nodup_of_filterMap_nodup {α β : Type} (f : α → Option β) (l : List α)
    (h : (l.filterMap f).Nodup) : (l.filter (fun x => !(f x).isNone)).Nodup := by
  induction l with
  | nil => simp
  | cons a rest ih =>
    cases hfa : f a with
    | none =>
      rw [List.filterMap_cons_none hfa] at h
      rw [List.filter_cons_of_neg (by simp [hfa])]
      exact ih h
    | some b =>
      rw [List.filterMap_cons_some hfa] at h
      rw [List.filter_cons_of_pos (by simp [hfa])]
      refine List.nodup_cons.mpr ⟨?_, ih (List.nodup_cons.mp h).2⟩
      intro ha
      exact (List.nodup_cons.mp h).1
        (List.mem_filterMap.mpr ⟨a, (List.mem_filter.mp ha).1, hfa⟩)

/-- An id carried by some page is found, on a page that carries it. -/
theorem findPage_of_mem (pages : List Page) (id : String)
    (h : id ∈ pages.filterMap (fun p => p.id)) :
    ∃ p, findPage pages id = some p ∧ p.id = some id ∧ p ∈ pages := by
  obtain ⟨q, hq, hqid⟩ := List.mem_filterMap.mp h
  cases hfind : findPage pages id with
  | none =>
    exfalso
    unfold findPage at hfind
    rw [List.find?_eq_none] at hfind
    exact hfind q hq (by simpa using hqid)
  | some p =>
    refine ⟨p, rfl, ?_, ?_⟩
    · have := List.find?_some hfind
      simpa using this
    · exact List.mem_of_find?_eq_some hfind

/-- What `findPage` finds is a page of the list that carries the id. -/
theorem findPage_some (pages : List Page) (id : String) (p : Page)
    (h : findPage pages id = some p) : p.id = some id ∧ p ∈ pages := by
  refine ⟨?_, List.mem_of_find?_eq_some h⟩
  have := List.find?_some h
  simpa using this

/-- The ids of the pages found for a sequence of known ids are the sequence itself. -/
theorem filterMap_findPage_ids (pages : List Page) (order : List String)
    (h : ∀ id ∈ order, id ∈ pages.filterMap (fun p => p.id)) :
    (order.filterMap (findPage pages)).map (fun p => p.id) = order.map some := by
  induction order with
  | nil => rfl
  | cons id rest ih =>
    obtain ⟨p, hfind, hpid, _⟩ := findPage_of_mem pages id (h id (List.mem_cons_self _ _))
    rw [List.filterMap_cons_some hfind, List.map_cons, List.map_cons, hpid,
      ih (fun i hi => h i (List.mem_cons_of_mem _ hi))]

/-- The check of the sequence accepts exactly the duplicate-free sequences that have the
same members as the current page ids. -/
theorem isExactIdSet_iff (order : List String) (definition : FormDefinition) :
    isExactIdSet order definition = true ↔
      (order.Nodup ∧ ∀ id, id ∈ order ↔ id ∈ pageIds definition) := by
  have hc : ∀ (l : List String) (id : String), l.contains id = true ↔ id ∈ l := by
    intro l id
    simp
  simp only [isExactIdSet, Bool.and_eq_true, decide_eq_true_eq, List.all_eq_true, hc]
  constructor
  · rintro ⟨⟨hnodup, h1⟩, h2⟩
    exact ⟨hnodup, fun id => ⟨h1 id, h2 id⟩⟩
  · rintro ⟨hnodup, h⟩
    exact ⟨⟨hnodup, fun id hid => (h id).mp hid⟩, fun id hid => (h id).mpr hid⟩

/-- The ids carried by the pages found for a sequence of known ids are the sequence. -/
theorem filterMap_findPage_pageIds (pages : List Page) (order : List String)
    (h : ∀ id ∈ order, id ∈ pages.filterMap (fun p => p.id)) :
    (order.filterMap (findPage pages)).filterMap (fun p => p.id) = order := by
  induction order with
  | nil => rfl
  | cons id rest ih =>
    obtain ⟨p, hfind, hpid, _⟩ := findPage_of_mem pages id (h id (List.mem_cons_self _ _))
    rw [List.filterMap_cons_some hfind, List.filterMap_cons_some hpid,
      ih (fun i hi => h i (List.mem_cons_of_mem _ hi))]

/-- The pages without an id carry no id. -/
theorem filterMap_id_filter_isNone (pages : List Page) :
    (pages.filter (fun p => p.id.isNone)).filterMap (fun p => p.id) = [] := by
  induction pages with
  | nil => rfl
  | cons page rest ih =>
    cases hid : page.id with
    | none =>
      rw [List.filter_cons_of_pos (by simp [hid]), List.filterMap_cons_none hid, ih]
    | some i =>
      rw [List.filter_cons_of_neg (by simp [hid]), ih]

/-- When the page ids are pairwise distinct, the pages found for a duplicate-free sequence
with the same members as the page ids, followed by the pages without an id, are a
rearrangement of the pages. -/
theorem reordered_pages_perm (pages : List Page) (order : List String)
    (hnodup : order.Nodup)
    (hiff : ∀ id, id ∈ order ↔ id ∈ pages.filterMap (fun p => p.id))
    (hids : (pages.filterMap (fun p => p.id)).Nodup) :
    (order.filterMap (findPage pages) ++ pages.filter (fun p => p.id.isNone)).Perm pages := by
  have hfound : (order.filterMap (findPage pages)).Perm
      (pages.filter (fun p => !p.id.isNone)) := by
    refine (List.perm_ext_iff_of_nodup ?_ ?_).mpr ?_
    · refine List.Nodup.filterMap ?_ hnodup
      intro i j p hi hj
      have h1 := (findPage_some pages i p hi).1
      have h2 := (findPage_some pages j p hj).1
      rw [h1] at h2
      injection h2
    · exact filter_nodup_of_filterMap_nodup (fun p => p.id) pages hids
    · intro a
      constructor
      · intro ha
        obtain ⟨i, _, hf⟩ := List.mem_filterMap.mp ha
        obtain ⟨hid, hmem⟩ := findPage_some pages i a hf
        exact List.mem_filter.mpr ⟨hmem, by simp [hid]⟩
      · intro ha
        obtain ⟨hmem, hsome⟩ := List.mem_filter.mp ha
        cases hid : a.id with
        | none => simp [hid] at hsome
        | some i =>
          have hi : i ∈ pages.filterMap (fun p => p.id) :=
            List.mem_filterMap.mpr ⟨a, hmem, hid⟩
          obtain ⟨q, hfind, hqid, hq⟩ := findPage_of_mem pages i hi
          have hqa : q = a :=
            filterMap_nodup_unique (fun p => p.id) pages hids hq hmem hqid hid
          rw [hqa] at hfind
          exact List.mem_filterMap.mpr ⟨i, (hiff i).mpr hi, hfind⟩
  exact (List.perm_append_comm.trans (List.Perm.append_left _ hfound)).trans
    (List.filter_append_perm (fun p => p.id.isNone) pages)

/-- C11: reordering the pages of a draft with a duplicate-free sequence of ids that has
exactly the members of the current page ids succeeds and yields a draft whose page ids are,
in this order, the given sequence; the pages are the previous pages rearranged when their
ids are pairwise distinct, and nothing else of the definition changes. Any other sequence
(an id missing, an extra id, a duplicate id) is rejected as invalid input, HTTP status 400,
and the stored form stays as it was. -/
theorem reorderPages_order (order : List String) (state : FormState) :
    ((order.Nodup ∧ ∀ id, id ∈ order ↔ id ∈ pageIds state.draft) →
      ∃ reordered,
        editDraft (reorderPages order) state =
          (.ok reordered, { state with draft := reordered }) ∧
        pageIds reordered = order ∧
        ((∀ p ∈ state.draft.pages, p.id.isSome = true) →
          reordered.pages.map (fun p => p.id) = order.map some) ∧
        ((pageIds state.draft).Nodup → reordered.pages.Perm state.draft.pages) ∧
        { reordered with pages := state.draft.pages } = state.draft) ∧
    (¬ (order.Nodup ∧ ∀ id, id ∈ order ↔ id ∈ pageIds state.draft) →
      editDraft (reorderPages order) state = (.error ApiError.InvalidInput, state)) ∧
    ApiError.InvalidInput.statusCode = some 400 := by
  refine ⟨?_, ?_, rfl⟩
  · intro hexact
    have hcheck := (isExactIdSet_iff order state.draft).mpr hexact
    obtain ⟨hnodup, hiff⟩ := hexact
    have hknown : ∀ id ∈ order, id ∈ state.draft.pages.filterMap (fun p => p.id) :=
      fun id hid => (hiff id).mp hid
    refine ⟨{ state.draft with
              pages := order.filterMap (findPage state.draft.pages) ++
                       state.draft.pages.filter (fun p => p.id.isNone) }, ?_, ?_, ?_, ?_, rfl⟩
    · simp [editDraft, reorderPages, hcheck]
    · simp only [pageIds]
      rw [List.filterMap_append, filterMap_findPage_pageIds _ _ hknown,
        filterMap_id_filter_isNone, List.append_nil]
    · intro hall
      have hnone : state.draft.pages.filter (fun p => p.id.isNone) = [] := by
        rw [List.filter_eq_nil_iff]
        intro p hp
        have := hall p hp
        cases hid : p.id <;> simp_all
      simp only [hnone, List.append_nil]
      exact filterMap_findPage_ids _ _ hknown
    · intro hids
      exact reordered_pages_perm state.draft.pages order hnodup hiff hids
  · intro hnot
    have hcheck : isExactIdSet order state.draft = false := by
      cases h : isExactIdSet order state.draft with
      | false => rfl
      | true => exact absurd ((isExactIdSet_iff order state.draft).mp h) hnot
    simp [editDraft, reorderPages, hcheck]

/-- Witness for C11 on the sample draft `[A, B, C, D]`: the sequence `[D, A, C, B]` yields the
page order `[D, A, C, B]`, and the sequence `[D, A, C]`, which misses `B`, is rejected. -/
theorem reorderPages_order_witness :
    (∃ reordered,
      editDraft (reorderPages ["D", "A", "C", "B"]) sampleState =
        (.ok reordered, { sampleState with draft := reordered }) ∧
      reordered.pages.map (fun p => p.id) = [some "D", some "A", some "C", some "B"]) ∧
    editDraft (reorderPages ["D", "A", "C"]) sampleState =
      (.error ApiError.InvalidInput, sampleState) := by
  constructor
  · obtain ⟨reordered, hrun, _, hmap, _, _⟩ :=
      (reorderPages_order ["D", "A", "C", "B"] sampleState).1
        ((isExactIdSet_iff _ _).mp (by decide))
    exact ⟨reordered, hrun, hmap (by decide)⟩
  · exact (reorderPages_order ["D", "A", "C"] sampleState).2.1
      (fun h => absurd ((isExactIdSet_iff _ _).mpr h) (by decide))

/-! ## The gate as a function of the two identity fields -/

/-- A payload with two truthy identity fields is admitted, with these two fields and the
resolver's scopes, and nothing is logged. -/
theorem validateServiceCredentials_ok_of_truthy (getDefaultScopes : Unit → JSValue)
    (artifacts decoded payload serviceId serviceName : JSValue) (log : Log)
    (hdecoded : artifacts.get "decoded" = .ok decoded)
    (hpayload : decoded.get "payload" = .ok payload)
    (hid : payload.get "serviceId" = .ok serviceId)
    (hname : payload.get "serviceName" = .ok serviceName)
    (hidTruthy : serviceId.truthy = true) (hnameTruthy : serviceName.truthy = true) :
    validateServiceCredentials getDefaultScopes artifacts log =
      (.ok (validResult serviceId serviceName (getDefaultScopes ())), log) := by
  have hp : payload.truthy = true := JSValue.truthy_of_get_truthy hid hidTruthy
  simp [validateServiceCredentials, hdecoded, hpayload, hid, hname, hp, hidTruthy,
    hnameTruthy]

/-- Reading a property with `?.` off a falsy value yields `undefined`. -/
theorem JSValue.getOpt_of_not_truthy {v : JSValue} (key : String) (h : v.truthy = false) :
    v.getOpt key = .ok .undefined := by
  cases v <;> simp_all [JSValue.getOpt, JSValue.get, JSValue.truthy, JSValue.isNullish]

/-- On a truthy value `?.` reads as `.` does. -/
theorem JSValue.getOpt_of_truthy {v : JSValue} (key : String) (h : v.truthy = true) :
    v.getOpt key = v.get key := by
  simp [JSValue.getOpt, JSValue.not_nullish_of_truthy h]

/-- What a run of the gate returns is a function of the two identity fields as read with
`?.`: a rejection unless both are truthy. -/
theorem validateServiceCredentials_result_of_fields (getDefaultScopes : Unit → JSValue)
    (artifacts decoded payload serviceId serviceName : JSValue) (log : Log)
    (hdecoded : artifacts.get "decoded" = .ok decoded)
    (hpayload : decoded.get "payload" = .ok payload)
    (hid : payload.getOpt "serviceId" = .ok serviceId)
    (hname : payload.getOpt "serviceName" = .ok serviceName) :
    (validateServiceCredentials getDefaultScopes artifacts log).1 =
      .ok (if serviceId.truthy && serviceName.truthy
        then validResult serviceId serviceName (getDefaultScopes ()) else invalidResult) := by
  cases hp : payload.truthy with
  | false =>
    rw [JSValue.getOpt_of_not_truthy "serviceId" hp] at hid
    injection hid with hid
    subst hid
    have hundefined : JSValue.undefined.truthy = false := rfl
    simp [validateServiceCredentials, hdecoded, hpayload, hp, hundefined]
  | true =>
    rw [JSValue.getOpt_of_truthy "serviceId" hp] at hid
    rw [JSValue.getOpt_of_truthy "serviceName" hp] at hname
    cases h1 : serviceId.truthy <;> cases h2 : serviceName.truthy <;>
      simp [validateServiceCredentials, hdecoded, hpayload, hp, hid, hname, h1, h2]

/-- C22: the decision of `validateServiceCredentials` depends only on `serviceId` and
`serviceName`. For any two artifacts whose decoded payloads agree on these two fields,
whatever else the payloads hold, the returned results are equal under the same scope
resolver; and when both payloads are present, or both absent, the log entries added are
equal too. -/
theorem validateServiceCredentials_depends_on_identity (getDefaultScopes : Unit → JSValue)
    (artifacts1 decoded1 payload1 artifacts2 decoded2 payload2 serviceId serviceName : JSValue)
    (log : Log)
    (hdecoded1 : artifacts1.get "decoded" = .ok decoded1)
    (hpayload1 : decoded1.get "payload" = .ok payload1)
    (hdecoded2 : artifacts2.get "decoded" = .ok decoded2)
    (hpayload2 : decoded2.get "payload" = .ok payload2)
    (hid1 : payload1.getOpt "serviceId" = .ok serviceId)
    (hid2 : payload2.getOpt "serviceId" = .ok serviceId)
    (hname1 : payload1.getOpt "serviceName" = .ok serviceName)
    (hname2 : payload2.getOpt "serviceName" = .ok serviceName) :
    (validateServiceCredentials getDefaultScopes artifacts1 log).1 =
      (validateServiceCredentials getDefaultScopes artifacts2 log).1 ∧
    (payload1.truthy = payload2.truthy →
      validateServiceCredentials getDefaultScopes artifacts1 log =
        validateServiceCredentials getDefaultScopes artifacts2 log) := by
  constructor
  · rw [validateServiceCredentials_result_of_fields getDefaultScopes artifacts1 decoded1
        payload1 serviceId serviceName log hdecoded1 hpayload1 hid1 hname1,
      validateServiceCredentials_result_of_fields getDefaultScopes artifacts2 decoded2
        payload2 serviceId serviceName log hdecoded2 hpayload2 hid2 hname2]
  · intro hsame
    cases hp : payload1.truthy with
    | false =>
      have hp2 : payload2.truthy = false := by rw [← hsame, hp]
      simp [validateServiceCredentials, hdecoded1, hpayload1, hdecoded2, hpayload2, hp, hp2]
    | true =>
      have hp2 : payload2.truthy = true := by rw [← hsame, hp]
      rw [JSValue.getOpt_of_truthy "serviceId" hp] at hid1
      rw [JSValue.getOpt_of_truthy "serviceName" hp] at hname1
      rw [JSValue.getOpt_of_truthy "serviceId" hp2] at hid2
      rw [JSValue.getOpt_of_truthy "serviceName" hp2] at hname2
      simp [validateServiceCredentials, hdecoded1, hpayload1, hdecoded2, hpayload2, hp, hp2,
        hid1, hname1, hid2, hname2]

/-- Witness for C22: two tokens of the same service that differ in `aud`, `iss` and `exp`
get the same result. -/
theorem validateServiceCredentials_depends_on_identity_witness :
    (validateServiceCredentials (fun _ => .arr [.str "form-read"])
        (.obj [("decoded", .obj [("payload",
          .obj [("serviceId", .str "s1"), ("serviceName", .str "Service"),
                ("aud", .str "a"), ("exp", .num 1900000000)])])]) []).1 =
      (validateServiceCredentials (fun _ => .arr [.str "form-read"])
        (.obj [("decoded", .obj [("payload",
          .obj [("iss", .str "i"), ("serviceName", .str "Service"),
                ("serviceId", .str "s1"), ("exp", .num 5)])])]) []).1 :=
  (validateServiceCredentials_depends_on_identity (fun _ => .arr [.str "form-read"])
    _ (.obj [("payload",
          .obj [("serviceId", .str "s1"), ("serviceName", .str "Service"),
                ("aud", .str "a"), ("exp", .num 1900000000)])])
    (.obj [("serviceId", .str "s1"), ("serviceName", .str "Service"),
           ("aud", .str "a"), ("exp", .num 1900000000)])
    _ (.obj [("payload",
          .obj [("iss", .str "i"), ("serviceName", .str "Service"),
                ("serviceId", .str "s1"), ("exp", .num 5)])])
    (.obj [("iss", .str "i"), ("serviceName", .str "Service"),
           ("serviceId", .str "s1"), ("exp", .num 5)])
    (.str "s1") (.str "Service") []
    (by simp [JSValue.get, JSValue.lookupField])
    (by simp [JSValue.get, JSValue.lookupField])
    (by simp [JSValue.get, JSValue.lookupField])
    (by simp [JSValue.get, JSValue.lookupField])
    (by simp [JSValue.getOpt, JSValue.isNullish, JSValue.get, JSValue.lookupField])
    (by simp [JSValue.getOpt, JSValue.isNullish, JSValue.get, JSValue.lookupField])
    (by simp [JSValue.getOpt, JSValue.isNullish, JSValue.get, JSValue.lookupField])
    (by simp [JSValue.getOpt, JSValue.isNullish, JSValue.get, JSValue.lookupField])).1

/-- A chained read of two properties succeeds exactly when each read does. -/
theorem JSValue.getPath_two (v x : JSValue) (k1 k2 : String) :
    v.getPath [k1, k2] = .ok x ↔ ∃ y, v.get k1 = .ok y ∧ y.get k2 = .ok x := by
  cases h1 : v.get k1 with
  | error e => simp [JSValue.getPath, h1]
  | ok y =>
    cases h2 : y.get k2 with
    | error e => simp [JSValue.getPath, h1, h2]
    | ok z => simp [JSValue.getPath, h1, h2]

/-- A chained read of three properties succeeds exactly when each read does. -/
theorem JSValue.getPath_three (v x : JSValue) (k1 k2 k3 : String) :
    v.getPath [k1, k2, k3] = .ok x ↔
      ∃ y z, v.get k1 = .ok y ∧ y.get k2 = .ok z ∧ z.get k3 = .ok x := by
  cases h1 : v.get k1 with
  | error e => simp [JSValue.getPath, h1]
  | ok y =>
    cases h2 : y.get k2 with
    | error e => simp [JSValue.getPath, h1, h2]
    | ok z =>
      cases h3 : z.get k3 with
      | error e => simp [JSValue.getPath, h1, h2, h3]
      | ok w => simp [JSValue.getPath, h1, h2, h3]

/-- C23: `validateServiceCredentials` fails closed on identity fields that are present but
empty. For every present payload whose `serviceId` or `serviceName` reads as a falsy value,
and the empty string, `0`, `false` and `null` are falsy, the result is exactly
`{isValid: false}` and the one log entry added carries the reason `authMissingFields`.
Consequently the result says `isValid: true` if and only if the payload is present and both
fields are truthy. -/
theorem validateServiceCredentials_fails_closed (getDefaultScopes : Unit → JSValue)
    (artifacts : JSValue) (log : Log) :
    (∀ decoded payload serviceId serviceName,
      artifacts.get "decoded" = .ok decoded → decoded.get "payload" = .ok payload →
      payload.truthy = true →
      payload.get "serviceId" = .ok serviceId → payload.get "serviceName" = .ok serviceName →
      (serviceId.truthy = false ∨ serviceName.truthy = false) →
      validateServiceCredentials getDefaultScopes artifacts log =
        (.ok (.obj [("isValid", .bool false)]),
         log ++ [{ level := LogLevel.info, message := authMissingFieldsMessage }])) ∧
    ((JSValue.str "").truthy = false ∧ (JSValue.num 0).truthy = false ∧
      (JSValue.bool false).truthy = false ∧ JSValue.null.truthy = false) ∧
    ((∃ result, (validateServiceCredentials getDefaultScopes artifacts log).1 = .ok result ∧
        result.get "isValid" = .ok (.bool true)) ↔
      ∃ payload serviceId serviceName,
        artifacts.getPath ["decoded", "payload"] = .ok payload ∧ payload.truthy = true ∧
        payload.get "serviceId" = .ok serviceId ∧ payload.get "serviceName" = .ok serviceName ∧
        serviceId.truthy = true ∧ serviceName.truthy = true) := by
  refine ⟨?_, ⟨rfl, rfl, rfl, rfl⟩, ?_, ?_⟩
  · intro decoded payload serviceId serviceName hdecoded hpayload hp hid hname hfalsy
    rcases hfalsy with h | h <;>
      simp [validateServiceCredentials, invalidResult, Logger.info, hdecoded, hpayload, hp,
        hid, hname, h]
  · rintro ⟨result, hrun, hvalid⟩
    obtain ⟨serviceId, serviceName, hsid, hsname, h1, h2, _, _⟩ :=
      validateServiceCredentials_valid_inv getDefaultScopes artifacts result log hrun hvalid
    obtain ⟨decoded, payload, hdecoded, hpayload, hid⟩ :=
      (JSValue.getPath_three _ _ _ _ _).mp hsid
    obtain ⟨decoded2, payload2, hdecoded2, hpayload2, hname⟩ :=
      (JSValue.getPath_three _ _ _ _ _).mp hsname
    rw [hdecoded] at hdecoded2
    injection hdecoded2 with hd
    subst hd
    rw [hpayload] at hpayload2
    injection hpayload2 with hpl
    subst hpl
    exact ⟨payload, serviceId, serviceName,
      (JSValue.getPath_two _ _ _ _).mpr ⟨decoded, hdecoded, hpayload⟩,
      JSValue.truthy_of_get_truthy hid h1, hid, hname, h1, h2⟩
  · rintro ⟨payload, serviceId, serviceName, hpath, _, hid, hname, h1, h2⟩
    obtain ⟨decoded, hdecoded, hpayload⟩ := (JSValue.getPath_two _ _ _ _).mp hpath
    refine ⟨validResult serviceId serviceName (getDefaultScopes ()), ?_, ?_⟩
    · rw [validateServiceCredentials_ok_of_truthy getDefaultScopes artifacts decoded payload
        serviceId serviceName log hdecoded hpayload hid hname h1 h2]
    · simp [validResult, JSValue.get, JSValue.lookupField]

/-- Witness for C23: the payload `{serviceId: '', serviceName: 'Test Service'}` is rejected
with the reason `authMissingFields`. -/
theorem validateServiceCredentials_fails_closed_witness :
    validateServiceCredentials (fun _ => .arr [.str "form-read"])
        (.obj [("decoded", .obj [("payload",
          .obj [("serviceId", .str ""), ("serviceName", .str "Test Service")])])]) [] =
      (.ok (.obj [("isValid", .bool false)]),
       [] ++ [{ level := LogLevel.info, message := authMissingFieldsMessage }]) :=
  (validateServiceCredentials_fails_closed (fun _ => .arr [.str "form-read"])
    (.obj [("decoded", .obj [("payload",
          .obj [("serviceId", .str ""), ("serviceName", .str "Test Service")])])]) []).1
    (.obj [("payload", .obj [("serviceId", .str ""), ("serviceName", .str "Test Service")])])
    (.obj [("serviceId", .str ""), ("serviceName", .str "Test Service")])
    (.str "") (.str "Test Service")
    (by simp [JSValue.get, JSValue.lookupField])
    (by simp [JSValue.get, JSValue.lookupField])
    rfl
    (by simp [JSValue.get, JSValue.lookupField])
    (by simp [JSValue.get, JSValue.lookupField])
    (Or.inl rfl)

/-! ## The gate and the author helper together -/

/-- A user with a truthy `id` and a truthy `displayName` is turned into the author made of
these two values. -/
theorem getAuthor_ok_of_truthy (user id displayName : JSValue)
    (hid : user.get "id" = .ok id) (hname : user.get "displayName" = .ok displayName)
    (hidTruthy : id.truthy = true) (hnameTruthy : displayName.truthy = true) :
    getAuthor user = .ok (.obj [("id", id), ("displayName", displayName)]) := by
  have hu : user.isNullish = false :=
    JSValue.not_nullish_of_truthy (JSValue.truthy_of_get_truthy hid hidTruthy)
  simp [getAuthor, JSValue.getOpt, hu, hid, hname, hidTruthy, hnameTruthy]

/-- Whenever `getAuthor` returns, the user has a truthy `id` and a truthy `displayName` and
the author is made of these two values. -/
theorem getAuthor_ok_inv (user author : JSValue) (h : getAuthor user = .ok author) :
    ∃ id displayName,
      user.get "id" = .ok id ∧ user.get "displayName" = .ok displayName ∧
      id.truthy = true ∧ displayName.truthy = true ∧
      author = .obj [("id", id), ("displayName", displayName)] := by
  cases hn : user.isNullish with
  | true =>
    have hundefined : JSValue.undefined.truthy = false := rfl
    simp [getAuthor, JSValue.getOpt, hn, hundefined] at h
  | false =>
    obtain ⟨id, hid⟩ := JSValue.get_ok_of_not_nullish "id" hn
    obtain ⟨displayName, hname⟩ := JSValue.get_ok_of_not_nullish "displayName" hn
    cases h1 : id.truthy with
    | false => simp [getAuthor, JSValue.getOpt, hn, hid, h1] at h
    | true =>
      cases h2 : displayName.truthy with
      | false => simp [getAuthor, JSValue.getOpt, hn, hid, hname, h1, h2] at h
      | true =>
        simp [getAuthor, JSValue.getOpt, hn, hid, hname, h1, h2] at h
        exact ⟨id, displayName, hid, hname, h1, h2, h.symm⟩

/-- C24: every identity admitted by the gate is accepted as an author. Whenever
`validateServiceCredentials` returns `isValid: true`, the result has a `credentials.user`
on which `getAuthor` does not throw but returns `{id: serviceId, displayName: serviceName}`,
the two fields of the payload. -/
theorem getAuthor_accepts_admitted (getDefaultScopes : Unit → JSValue)
    (artifacts result : JSValue) (log : Log)
    (hrun : (validateServiceCredentials getDefaultScopes artifacts log).1 = .ok result)
    (hvalid : result.get "isValid" = .ok (.bool true)) :
    ∃ user serviceId serviceName,
      result.getPath ["credentials", "user"] = .ok user ∧
      artifacts.getPath ["decoded", "payload", "serviceId"] = .ok serviceId ∧
      artifacts.getPath ["decoded", "payload", "serviceName"] = .ok serviceName ∧
      getAuthor user = .ok (.obj [("id", serviceId), ("displayName", serviceName)]) := by
  obtain ⟨serviceId, serviceName, hsid, hsname, h1, h2, hres, _⟩ :=
    validateServiceCredentials_valid_inv getDefaultScopes artifacts result log hrun hvalid
  subst hres
  refine ⟨.obj [("id", serviceId), ("displayName", serviceName)], serviceId, serviceName,
    ?_, hsid, hsname, ?_⟩
  · simp [validResult, JSValue.getPath, JSValue.get, JSValue.lookupField]
  · exact getAuthor_ok_of_truthy _ serviceId serviceName
      (by simp [JSValue.get, JSValue.lookupField])
      (by simp [JSValue.get, JSValue.lookupField]) h1 h2

/-- Witness for C24 on the token of the unit test. -/
theorem getAuthor_accepts_admitted_witness :
    ∃ user serviceId serviceName,
      (validResult (.str "test-service-001") (.str "Test Service")
        (.arr [.str "form-read"])).getPath ["credentials", "user"] = .ok user ∧
      (JSValue.obj [("decoded", .obj [("payload",
          .obj [("serviceId", .str "test-service-001"),
                ("serviceName", .str "Test Service")])])]).getPath
        ["decoded", "payload", "serviceId"] = .ok serviceId ∧
      (JSValue.obj [("decoded", .obj [("payload",
          .obj [("serviceId", .str "test-service-001"),
                ("serviceName", .str "Test Service")])])]).getPath
        ["decoded", "payload", "serviceName"] = .ok serviceName ∧
      getAuthor user = .ok (.obj [("id", serviceId), ("displayName", serviceName)]) :=
  getAuthor_accepts_admitted (fun _ => .arr [.str "form-read"])
    (.obj [("decoded", .obj [("payload",
          .obj [("serviceId", .str "test-service-001"),
                ("serviceName", .str "Test Service")])])])
    (validResult (.str "test-service-001") (.str "Test Service") (.arr [.str "form-read"]))
    []
    (by simp [validateServiceCredentials, JSValue.get, JSValue.lookupField, JSValue.truthy])
    (by simp [validResult, JSValue.get, JSValue.lookupField])

/-- C25: `getAuthor` is a projection. Whenever it returns, its result is the object with
exactly the two fields `id` and `displayName`, holding the user's `id` and `displayName`,
so every other field of the user is dropped; and it is idempotent: applied to its own
result it returns that result again. -/
theorem getAuthor_projection (user author : JSValue) (h : getAuthor user = .ok author) :
    (∃ id displayName,
      user.get "id" = .ok id ∧ user.get "displayName" = .ok displayName ∧
      author = .obj [("id", id), ("displayName", displayName)]) ∧
    getAuthor author = .ok author := by
  obtain ⟨id, displayName, hid, hname, h1, h2, hauthor⟩ := getAuthor_ok_inv user author h
  refine ⟨⟨id, displayName, hid, hname, hauthor⟩, ?_⟩
  subst hauthor
  exact getAuthor_ok_of_truthy _ id displayName
    (by simp [JSValue.get, JSValue.lookupField])
    (by simp [JSValue.get, JSValue.lookupField]) h1 h2

/-- Witness for C25 on the credentials user of the test fixture with a `scope` added: the
author has no `scope`, and `getAuthor` maps the author to itself. -/
theorem getAuthor_projection_witness :
    getAuthor (.obj [("id", .str "test-service-001"), ("displayName", .str "Test Service")]) =
      .ok (.obj [("id", .str "test-service-001"), ("displayName", .str "Test Service")]) :=
  (getAuthor_projection
    (.obj [("id", .str "test-service-001"), ("scope", .arr [.str "form-read"]),
           ("displayName", .str "Test Service")])
    (.obj [("id", .str "test-service-001"), ("displayName", .str "Test Service")])
    (by simp [getAuthor, JSValue.getOpt, JSValue.isNullish, JSValue.get, JSValue.lookupField,
      JSValue.truthy])).2

/-! ## Test tokens through the gate -/

/-- C29: tokens built by the test helper round-trip through the gate. For every non-empty
`serviceId` and `serviceName`, and whatever the clock, the expiry and the other content of
the artifacts, the payload `generateTestToken` builds, once it is the decoded payload of
the artifacts, is admitted with
`credentials.user = {id: serviceId, displayName: serviceName}` and nothing is logged. With
the helper's default arguments and the scope set
`['form-delete', 'form-edit', 'form-read', 'form-publish']` the credentials are the
credentials of the fixture `auth` of `test/fixtures/auth.js`. -/
theorem generateTestToken_round_trip (getDefaultScopes : Unit → JSValue) (dateNow : Int)
    (artifacts decoded : JSValue) (log : Log) (serviceId serviceName : String)
    (expiresIn : Option Int)
    (hid : serviceId ≠ "") (hname : serviceName ≠ "") :
    (artifacts.get "decoded" = .ok decoded →
      decoded.get "payload" =
        .ok (testTokenPayload dateNow
          (some { serviceId := some serviceId, serviceName := some serviceName,
                  expiresIn := expiresIn })) →
      validateServiceCredentials getDefaultScopes artifacts log =
        (.ok (.obj [("isValid", .bool true),
                    ("credentials",
                      .obj [("user", .obj [("id", .str serviceId),
                                           ("displayName", .str serviceName)]),
                            ("scope", getDefaultScopes ())])]), log)) ∧
    (artifacts.get "decoded" = .ok decoded →
      decoded.get "payload" = .ok (testTokenPayload dateNow none) →
      ∃ result,
        validateServiceCredentials
            (fun _ => .arr [.str "form-delete", .str "form-edit", .str "form-read",
                            .str "form-publish"]) artifacts log = (.ok result, log) ∧
        result.get "isValid" = .ok (.bool true) ∧
        result.get "credentials" = authFixture.get "credentials") := by
  constructor
  · intro hdecoded hpayload
    rw [validateServiceCredentials_ok_of_truthy getDefaultScopes artifacts decoded _
      (.str serviceId) (.str serviceName) log hdecoded hpayload
      (by simp [testTokenPayload, JSValue.get, JSValue.lookupField])
      (by simp [testTokenPayload, JSValue.get, JSValue.lookupField])
      (by simp [JSValue.truthy, hid]) (by simp [JSValue.truthy, hname])]
    rfl
  · intro hdecoded hpayload
    refine ⟨_, validateServiceCredentials_ok_of_truthy _ artifacts decoded _
      (.str "test-service-001") (.str "Test Service") log hdecoded hpayload
      (by simp [testTokenPayload, JSValue.get, JSValue.lookupField])
      (by simp [testTokenPayload, JSValue.get, JSValue.lookupField])
      (by simp [JSValue.truthy]) (by simp [JSValue.truthy]), ?_, ?_⟩
    · simp [validResult, JSValue.get, JSValue.lookupField]
    · simp [validResult, authFixture, JSValue.get, JSValue.lookupField]

/-- Witness for C29: a token built for the service `s1` at the clock reading 2500 ms. -/
theorem generateTestToken_round_trip_witness :
    validateServiceCredentials (fun _ => .arr [.str "form-read"])
        (.obj [("decoded", .obj [("payload",
          testTokenPayload 2500
            (some { serviceId := some "s1", serviceName := some "Service One",
                    expiresIn := some 60 }))])]) [] =
      (.ok (.obj [("isValid", .bool true),
                  ("credentials",
                    .obj [("user", .obj [("id", .str "s1"),
                                         ("displayName", .str "Service One")]),
                          ("scope", .arr [.str "form-read"])])]), []) :=
  (generateTestToken_round_trip (fun _ => .arr [.str "form-read"]) 2500
    (.obj [("decoded", .obj [("payload",
      testTokenPayload 2500
        (some { serviceId := some "s1", serviceName := some "Service One",
                expiresIn := some 60 }))])])
    (.obj [("payload",
      testTokenPayload 2500
        (some { serviceId := some "s1", serviceName := some "Service One",
                expiresIn := some 60 }))])
    [] "s1" "Service One" (some 60) (by decide) (by decide)).1
    (by simp [JSValue.get, JSValue.lookupField])
    (by simp [JSValue.get, JSValue.lookupField])

/-! ## The configuration -/

/-- C21, evaluated where it fails. The default of `isProduction` is true exactly when
`NODE_ENV` is 'production' and the default of `isTest` exactly when it is 'test', but the
default of `isDevelopment` is true exactly when `NODE_ENV` is not 'production'. So in the
allowed environment 'test' the loaded configuration has `env` 'test' and both
`isDevelopment` and `isTest` true. -/
theorem loadConfig_flags_in_test (coerceBoolean : String → Bool) :
    (∀ nodeEnv : Option String,
      ((schemaDefaultsFor nodeEnv).isProduction = true ↔ nodeEnv = some "production") ∧
      ((schemaDefaultsFor nodeEnv).isDevelopment = true ↔ nodeEnv ≠ some "production") ∧
      ((schemaDefaultsFor nodeEnv).isTest = true ↔ nodeEnv = some "test")) ∧
    (∃ config,
      loadConfig
          (fun name => if name = "NODE_ENV" then some "test"
            else if name = "JWT_SECRET" then some "secret" else none)
          coerceBoolean [] = .ok config ∧
      config.env = "test" ∧ config.isProduction = false ∧
      config.isDevelopment = true ∧ config.isTest = true) := by
  constructor
  · intro nodeEnv
    simp [schemaDefaultsFor]
  · refine ⟨_, rfl, rfl, rfl, rfl, rfl⟩

/-- C27: for every value of `NODE_ENV` the default redaction list covers the authorization
and cookie headers of the request: in production it contains
'req.headers.authorization' and 'req.headers.cookie', otherwise it contains 'req', which
both paths start with. The default log format is 'ecs' exactly in production and
'pino-pretty' otherwise, and logging is enabled by default exactly when the environment is
not 'test'. -/
theorem schemaDefaultsFor_log (nodeEnv : Option String) :
    (nodeEnv = some "production" →
      "req.headers.authorization" ∈ (schemaDefaultsFor nodeEnv).logRedact ∧
      "req.headers.cookie" ∈ (schemaDefaultsFor nodeEnv).logRedact) ∧
    (nodeEnv ≠ some "production" → "req" ∈ (schemaDefaultsFor nodeEnv).logRedact) ∧
    ("req.headers.authorization" = "req" ++ ".headers.authorization" ∧
      "req.headers.cookie" = "req" ++ ".headers.cookie") ∧
    ((schemaDefaultsFor nodeEnv).logFormat = "ecs" ↔ nodeEnv = some "production") ∧
    ((schemaDefaultsFor nodeEnv).logFormat = "pino-pretty" ↔ nodeEnv ≠ some "production") ∧
    ((schemaDefaultsFor nodeEnv).logEnabled = true ↔ nodeEnv ≠ some "test") ∧
    ((schemaDefaultsFor nodeEnv).logEnabled = true ↔
      (nodeEnv.getD (schemaDefaultsFor nodeEnv).env) ≠ "test") := by
  by_cases hprod : nodeEnv = some "production"
  · subst hprod
    simp [schemaDefaultsFor]
  · by_cases htest : nodeEnv = some "test"
    · subst htest
      simp [schemaDefaultsFor]
    · have henv : nodeEnv.getD "development" ≠ "test" := by
        cases nodeEnv with
        | none => decide
        | some v =>
          simp only [Option.getD_some]
          intro hv
          exact htest (by rw [hv])
      simp [schemaDefaultsFor, hprod, htest, henv]

/-- C26, as stated, fails: the signing secret is checked after the schema validation. With
`NODE_ENV` set to 'staging' and no `JWT_SECRET`, the resolved `jwtSecret` is the empty
string, and what loading the configuration throws is the error of the validation, not
`Error('JWT_SECRET environment variable must be set.')`. -/
theorem loadConfig_validation_comes_first :
    ¬ ∀ (processEnv : ProcessEnv) (coerceBoolean : String → Bool)
        (otherViolations : List String),
        (resolveConfig processEnv coerceBoolean).jwtSecret = "" →
        loadConfig processEnv coerceBoolean otherViolations =
          .error (.error "JWT_SECRET environment variable must be set.") := by
  intro h
  have h2 := h (fun name => if name = "NODE_ENV" then some "staging" else none)
    (fun _ => true) [] rfl
  have h3 : loadConfig (fun name => if name = "NODE_ENV" then some "staging" else none)
      (fun _ => true) [] = .error (.error "env") := rfl
  rw [h3] at h2
  injection h2 with h2
  injection h2 with h2
  exact absurd h2 (by decide)

/-- C26, amended: configuration loading fails closed on a missing signing secret. The
resolved `jwtSecret` is the empty string when `JWT_SECRET` is not set; whenever it is the
empty string, loading the configuration throws, and what it throws is
`Error('JWT_SECRET environment variable must be set.')` whenever the schema validation
passes. So a configuration that was loaded has a non-empty `jwtSecret`, and the strategy
the auth plugin registers with it has a non-empty key. The generate-token script throws,
before it generates, prints or writes anything, when `JWT_SECRET` is not set or empty. -/
theorem loadConfig_fails_closed (processEnv : ProcessEnv) (coerceBoolean : String → Bool)
    (otherViolations : List String) :
    (processEnv "JWT_SECRET" = none →
      (resolveConfig processEnv coerceBoolean).jwtSecret = "") ∧
    ((resolveConfig processEnv coerceBoolean).jwtSecret = "" →
      ∃ e, loadConfig processEnv coerceBoolean otherViolations = .error e) ∧
    ((resolveConfig processEnv coerceBoolean).jwtSecret = "" →
      schemaViolations (resolveConfig processEnv coerceBoolean) ++ otherViolations = [] →
      loadConfig processEnv coerceBoolean otherViolations =
        .error (.error "JWT_SECRET environment variable must be set.")) ∧
    (∀ config, loadConfig processEnv coerceBoolean otherViolations = .ok config →
      config.jwtSecret ≠ "" ∧
      ∀ (getDefaultScopes : Unit → JSValue) (name scheme : String) (options : StrategyOptions),
        ServerCall.authStrategy name scheme options ∈
          auth.plugin.register config getDefaultScopes [] →
        options.keys ≠ "") ∧
    (∀ (generate : JSValue → String → String → String)
        (parse : String → Except JSError JSValue) (stringify : JSValue → String)
        (input : ScriptInput),
      (input.jwtSecret = none ∨ input.jwtSecret = some "") →
      generateTokenScript generate parse stringify input =
        { thrown := some (.error scriptSecretMessage), written := none, stdout := [],
          stderr := [] }) := by
  refine ⟨?_, ?_, ?_, ?_, ?_⟩
  · intro hunset
    simp [resolveConfig, hunset, schemaDefaultsFor]
  · intro hempty
    by_cases hv : schemaViolations (resolveConfig processEnv coerceBoolean) ++
        otherViolations = []
    · exact ⟨_, by simp only [loadConfig, hv, hempty]; rfl⟩
    · exact ⟨_, by simp only [loadConfig, ne_eq, hv, not_false_eq_true, if_true]; rfl⟩
  · intro hempty hv
    simp only [loadConfig, hv, hempty]
    rfl
  · intro config hload
    have hsecret : config.jwtSecret ≠ "" := by
      intro hempty
      by_cases hv : schemaViolations (resolveConfig processEnv coerceBoolean) ++
          otherViolations = []
      · by_cases hs : (resolveConfig processEnv coerceBoolean).jwtSecret = ""
        · simp [loadConfig, hv, hs] at hload
        · simp [loadConfig, hv, hs] at hload
          rw [← hload] at hempty
          exact hs hempty
      · simp [loadConfig, hv] at hload
    refine ⟨hsecret, ?_⟩
    intro getDefaultScopes name scheme options hmem
    simp [auth.plugin.register, Server.register, Server.authStrategy,
      Server.authDefault] at hmem
    obtain ⟨_, _, hopt⟩ := hmem
    rw [hopt]
    exact hsecret
  · intro generate parse stringify input hsecret
    rcases hsecret with h | h <;> simp [generateTokenScript, h]

/-- Witness for the amended C26: in the environment 'development' without `JWT_SECRET`
loading the configuration throws the `JWT_SECRET` error. -/
theorem loadConfig_fails_closed_witness :
    loadConfig (fun name => if name = "NODE_ENV" then some "development" else none)
        (fun _ => true) [] =
      .error (.error "JWT_SECRET environment variable must be set.") :=
  (loadConfig_fails_closed (fun name => if name = "NODE_ENV" then some "development" else none)
    (fun _ => true) []).2.2.1 rfl rfl

/-! ## The `--save` branch on failure -/

/-- C28: the `--save` branch is atomic on failure. When reading the file fails with an
error whose code is not `ENOENT`, and when the content of the file makes `JSON.parse`
throw (a `SyntaxError`, which has no code), the run ends with that error thrown again,
after one line on `console.error`, and the file is not written. Only a read error with the
code `ENOENT` is treated as the empty configuration: the run then does not throw and
writes `{local: {authToken: token}}`. -/
theorem generateTokenScript_save_atomic (generate : JSValue → String → String → String)
    (parse : String → Except JSError JSValue) (stringify : JSValue → String)
    (input : ScriptInput) (secret : String)
    (hsecret : input.jwtSecret = some secret) (hpresent : secret ≠ "")
    (hsave : input.argv.contains "--save" = true) :
    (∀ e, input.file = .error e → e.code ≠ some "ENOENT" →
      generateTokenScript generate parse stringify input =
        { thrown := some e, written := none, stdout := [],
          stderr := ["Error updating http-client.private.env.json: " ++ e.message] }) ∧
    (∀ fileContent e, input.file = .ok fileContent → parse fileContent = .error e →
      e.code ≠ some "ENOENT" →
      generateTokenScript generate parse stringify input =
        { thrown := some e, written := none, stdout := [],
          stderr := ["Error updating http-client.private.env.json: " ++ e.message] }) ∧
    (∀ text, (JSError.syntaxError text).code ≠ some "ENOENT") ∧
    (∀ e, input.file = .error e → e.code = some "ENOENT" →
      (generateTokenScript generate parse stringify input).thrown = none ∧
      (generateTokenScript generate parse stringify input).written =
        some (stringify (.obj [("local", .obj [("authToken",
          .str (generate (scriptTokenPayload input.clock) secret "HS256"))])]) ++ "\n")) := by
  have hmem : "--save" ∈ input.argv := by simpa using hsave
  refine ⟨?_, ?_, ?_, ?_⟩
  · intro e hfile hcode
    simp [generateTokenScript, hsecret, hpresent, hmem, savedEnvFile, loadEnvFile, hfile,
      hcode]
  · intro fileContent e hfile hparse hcode
    simp [generateTokenScript, hsecret, hpresent, hmem, savedEnvFile, loadEnvFile, hfile,
      hparse, hcode]
  · intro text
    simp [JSError.code]
  · intro e hfile hcode
    simp [generateTokenScript, hsecret, hpresent, hmem, savedEnvFile, loadEnvFile, hfile,
      hcode, setLocalAuthToken, JSValue.get, JSValue.set, JSValue.lookupField,
      JSValue.setField, JSValue.isNullish]

/-- Witness for C28: the file cannot be read for lack of permission (`EACCES`); the run
throws that error and writes nothing. -/
theorem generateTokenScript_save_atomic_witness :
    generateTokenScript (fun _ key _ => "token signed with " ++ key)
        (fun _ => .error (.syntaxError "Unexpected token")) (fun _ => "json")
        { jwtSecret := some "secret", argv := ["node", "generate-token.js", "--save"],
          clock := fun _ => 2000, file := .error (.system "EACCES" "permission denied") } =
      { thrown := some (.system "EACCES" "permission denied"), written := none, stdout := [],
        stderr := ["Error updating http-client.private.env.json: " ++
          (JSError.system "EACCES" "permission denied").message] } :=
  (generateTokenScript_save_atomic (fun _ key _ => "token signed with " ++ key)
    (fun _ => .error (.syntaxError "Unexpected token")) (fun _ => "json")
    { jwtSecret := some "secret", argv := ["node", "generate-token.js", "--save"],
      clock := fun _ => 2000, file := .error (.system "EACCES" "permission denied") }
    "secret" rfl (by decide) (by decide)).1 _ rfl (by decide)

end GrantsUiConfigApi
